import Mathlib

/-!
Verification of the AI travel-plan generation pipeline in
`src/utils/ai_graph.py` (travel-planner-fastapi).

The Python code is shallowly embedded: JSON values become an inductive
`Json` type whose objects are insertion-ordered association lists (the
semantics of Python dicts: assignment to an existing key updates it in
place, assignment to a new key appends it at the end).  The module-level
`MOCK_TRAVEL_PLAN["days"]` list, which the test-mode fallback mutates in
place through a shallow `dict.copy()`, is threaded explicitly as a
`List Json` value.  The LLM (`llm.invoke`) and `json.loads` are external
collaborators and are passed in as oracles: the client as a per-call
`Except String String` (exception message or response text), the parser
as a `String → Option Json` function.
-/

/-- JSON values as produced by json.loads.  Numbers are modelled as
integers (the plan schema only uses integral numbers); object fields are
kept in insertion order, mirroring Python dicts. -/
inductive Json where
  | null : Json
  | bool : Bool → Json
  | num : Int → Json
  | str : String → Json
  | arr : List Json → Json
  | obj : List (String × Json) → Json

mutual

/-- Structural (value) equality of JSON values, the equality Python
`==` applies to parsed JSON objects.  Only used to model
`list.index`. -/
def Json.beq : Json → Json → Bool
  | .null, .null => true
  | .bool a, .bool b => a == b
  | .num a, .num b => a == b
  | .str a, .str b => a == b
  | .arr a, .arr b => beqArr a b
  | .obj a, .obj b => beqFs a b
  | _, _ => false

/-- Element-wise equality of JSON arrays. -/
def beqArr : List Json → List Json → Bool
  | [], [] => true
  | x :: xs, y :: ys => Json.beq x y && beqArr xs ys
  | _, _ => false

/-- Entry-wise equality of object field lists. -/
def beqFs : List (String × Json) → List (String × Json) → Bool
  | [], [] => true
  | (k, v) :: fs, (l, w) :: gs => k == l && Json.beq v w && beqFs fs gs
  | _, _ => false

end

/-- Lookup of a key in an object field list (first occurrence). -/
def getKey? : List (String × Json) → String → Option Json
  | [], _ => none
  | (k, v) :: rest, key => if k = key then some v else getKey? rest key

/-- Python membership test `key in dict`. -/
def hasKey (fs : List (String × Json)) (key : String) : Bool :=
  (getKey? fs key).isSome

/-- Python dict assignment `d[key] = v`: update the existing entry in
place, or append a new entry at the end. -/
def setKey : List (String × Json) → String → Json → List (String × Json)
  | [], key, v => [(key, v)]
  | (k, w) :: rest, key, v =>
    if k = key then (key, v) :: rest else (k, w) :: setKey rest key v

/-- Python `del d[key]`: remove the first entry with the given key
(Python dicts never hold a key twice, so the first is the only one). -/
def delKey : List (String × Json) → String → List (String × Json)
  | [], _ => []
  | (k, w) :: rest, key =>
    if k = key then rest else (k, w) :: delKey rest key

/-- Field lookup on a JSON value; `none` when the value is not an object
or lacks the key. -/
def Json.get : Json → String → Option Json
  | .obj fs, key => getKey? fs key
  | _, _ => none

/-- Keys of an object field list are pairwise distinct (always true of
anything json.loads produces, since Python dicts dedup keys). -/
def distinctKeys : List (String × Json) → Bool
  | [] => true
  | (k, _) :: rest => !(rest.any (fun kv => kv.1 = k)) && distinctKeys rest

mutual

/-- Well-formedness of a JSON value: every object, recursively, has
pairwise distinct keys.  Every value produced by json.loads satisfies
this. -/
def Json.wf : Json → Bool
  | .obj fs => distinctKeys fs && wfFields fs
  | .arr xs => wfArr xs
  | _ => true

/-- Well-formedness of the elements of a JSON array. -/
def wfArr : List Json → Bool
  | [] => true
  | x :: xs => x.wf && wfArr xs

/-- Well-formedness of the values of an object field list. -/
def wfFields : List (String × Json) → Bool
  | [] => true
  | (_, v) :: fs => v.wf && wfFields fs

end

/-! ## Python string primitives

The Python string methods the pipeline uses (strip, split on a
one-character separator, int) are modelled directly over character
lists so that every definition evaluates by kernel reduction. -/

/-- The whitespace characters Python str.strip removes (the ASCII ones;
the unicode extras are not exercised by anything here). -/
def isPySpace (c : Char) : Bool :=
  c = ' ' || c = '\t' || c = '\n' || c = '\r' || c = '\x0b' || c = '\x0c'

/-- Python str.strip(): drop whitespace from both ends. -/
def pyStrip (cs : List Char) : List Char :=
  ((cs.dropWhile isPySpace).reverse.dropWhile isPySpace).reverse

/-- Python str.split(sep) for a one-character separator: the fragments
between occurrences, with empty fragments kept. -/
def splitOnChar (sep : Char) : List Char → List (List Char)
  | [] => [[]]
  | c :: rest =>
    match splitOnChar sep rest with
    | [] => [[c]]
    | g :: gs => if c = sep then [] :: g :: gs else (c :: g) :: gs

/-- Digit run evaluation for pyInt?. -/
def digitsValAux : List Char → Nat → Option Nat
  | [], acc => some acc
  | c :: rest, acc =>
    if c.isDigit then digitsValAux rest (acc * 10 + (c.toNat - 48)) else none

/-- Value of a non-empty run of digits. -/
def digitsVal? : List Char → Option Nat
  | [] => none
  | c :: rest => digitsValAux (c :: rest) 0

/-- Python int(str): surrounding whitespace is tolerated, an optional
sign precedes a non-empty digit run.  (Python additionally allows
underscores between digits; nothing here feeds it such strings.) -/
def pyInt? (cs : List Char) : Option Int :=
  match pyStrip cs with
  | '+' :: rest => (digitsVal? rest).map Int.ofNat
  | '-' :: rest => (digitsVal? rest).map (fun n => -(n : Int))
  | t => (digitsVal? t).map Int.ofNat

/-! ## Response extraction (ai_graph.py lines 204-212 and 518-527)

The raw model text is stripped, the first opening brace and the last
closing brace are located with Python `str.find` / `str.rfind`, and when
both exist in that order the text between them (inclusive) replaces the
whole; `json.loads` is then applied to whatever text resulted. -/

/-- The opening curly brace character. -/
def openB : Char := '\x7b'

/-- The closing curly brace character. -/
def closeB : Char := '\x7d'

/-- Python `str.find` restricted to a single character: index of the
first occurrence, or -1. -/
def pyFind : List Char → Char → Int
  | [], _ => -1
  | c :: rest, t =>
    if c = t then 0
    else
      let r := pyFind rest t
      if r < 0 then -1 else r + 1

/-- Python `str.rfind` restricted to a single character: index of the
last occurrence, or -1. -/
def pyRFind : List Char → Char → Int
  | [], _ => -1
  | c :: rest, t =>
    let r := pyRFind rest t
    if 0 ≤ r then r + 1
    else if c = t then 0 else -1

/-- The cleaning step of the generate node: strip the response, and when
a first opening brace at index i and a last closing brace at a strictly
later index j are found, keep exactly the slice from i to j inclusive;
otherwise the whole stripped text is kept. -/
def extractJson (s0 : String) : String :=
  let cs := pyStrip s0.data
  let i := pyFind cs openB
  let j := pyRFind cs closeB
  if 0 ≤ i ∧ i < j then
    String.mk (((cs.drop i.toNat).take (j - i).toNat.succ))
  else String.mk cs

/-- Spec-side restatement of the extraction contract, written from the
words of the specification: locate the first opening brace and the last
closing brace and take the substring between them inclusive; when no
opening brace is found, or no closing brace after it, the (stripped)
text is left as is.  Stated with the standard library search functions,
to be compared with the source-translated extractJson. -/
def specExtract (s0 : String) : String :=
  let cs := pyStrip s0.data
  match cs.findIdx? (fun c => c = openB),
        (cs.reverse.findIdx? (fun c => c = closeB)).map
          (fun r => cs.length - 1 - r) with
  | some i, some j =>
    if i < j then String.mk ((cs.drop i).take (j - i + 1))
    else String.mk cs
  | _, _ => String.mk cs

/-! ## Time handling (ai_graph.py lines 381-395 and 554-568)

A time value passes when it is a string splitting on a colon into
exactly two fragments that both parse as integers, with the hour in
0..23 and the minute in 0..59.  Any other shape (wrong fragment count,
non-integer fragment, out-of-range value, or a non-string value, whose
missing split method raises) is invalid, and the validator silently
replaces it by the default pair rather than raising. -/

/-- Validity of a time string per the HH:MM check of the validator.
Python int() also tolerates surrounding whitespace and an explicit
plus sign; those corners are not exercised by any claim. -/
def timeOk (s : String) : Bool :=
  match splitOnChar ':' s.data with
  | [h, m] =>
    match pyInt? h, pyInt? m with
    | some hh, some mm =>
      decide (0 ≤ hh) && decide (hh ≤ 23) && decide (0 ≤ mm) && decide (mm ≤ 59)
    | _, _ => false
  | _ => false

/-- Validity of an activity time field value: it must be a string and
pass the HH:MM check. -/
def timeValueOk : Option Json → Bool
  | some (.str s) => timeOk s
  | _ => false

/-- The silent in-place repair loop of the validator: an invalid
start_at becomes "09:00", an invalid end_at becomes "11:00"; valid
fields are left alone. -/
def fixActivityTimes (fs : List (String × Json)) : List (String × Json) :=
  let fs1 :=
    if timeValueOk (getKey? fs "start_at") then fs
    else setKey fs "start_at" (.str "09:00")
  if timeValueOk (getKey? fs1 "end_at") then fs1
  else setKey fs1 "end_at" (.str "11:00")

/-! ## Plan validator (ai_graph.py lines 335-401)

Exceptions raised mid-walk leave the corrections already made to
earlier activities in place (the Python code mutates the plan as it
goes and returns the mutated plan alongside the error), so the error
side of each function carries the partially repaired structure. -/

/-- Required field names of an activity, in the order checked. -/
def requiredActivityFields : List String :=
  ["location", "activity", "tips", "start_at", "end_at"]

/-- Required field names of a day, in the order checked. -/
def requiredDayFields : List String :=
  ["day_number", "description", "reminder", "activities"]

/-- Required top-level field names of a plan, in the order checked. -/
def requiredPlanFields : List String :=
  ["title", "destination", "remarks", "days", "tips"]

/-- First required field missing from an object, if any. -/
def firstMissing (fs : List (String × Json)) : List String → Option String
  | [] => none
  | k :: ks => if hasKey fs k then firstMissing fs ks else some k

/-- Validator treatment of one activity: check the five required
fields, then silently repair invalid time values.  A non-object
activity raises in Python (membership test or item assignment on a
non-dict). -/
def validateActivity : Json → Except String Json
  | .obj fs =>
    match firstMissing fs requiredActivityFields with
    | some f => .error ("Activity is missing required field: " ++ f)
    | none => .ok (.obj (fixActivityTimes fs))
  | _ => .error "TypeError: activity is not a dict"

/-- Validator walk over the activity list of a day; the error side
carries the list with the repairs made before the failure point. -/
def validateActs : List Json → Except (String × List Json) (List Json)
  | [] => .ok []
  | a :: rest =>
    match validateActivity a with
    | .error msg => .error (msg, a :: rest)
    | .ok a2 =>
      match validateActs rest with
      | .error (msg, rest2) => .error (msg, a2 :: rest2)
      | .ok rest2 => .ok (a2 :: rest2)

/-- Validator treatment of one day: required fields, activities must be
a list, then the activity walk. -/
def validateDay : Json → Except (String × Json) Json
  | .obj fs =>
    match firstMissing fs requiredDayFields with
    | some f => .error ("Day is missing required field: " ++ f, .obj fs)
    | none =>
      match getKey? fs "activities" with
      | some (.arr acts) =>
        match validateActs acts with
        | .error (msg, acts2) =>
          .error (msg, .obj (setKey fs "activities" (.arr acts2)))
        | .ok acts2 => .ok (.obj (setKey fs "activities" (.arr acts2)))
      | some _ => .error ("Activities must be a list", .obj fs)
      | none => .error ("Day is missing required field: activities", .obj fs)
  | d => .error ("TypeError: day is not a dict", d)

/-- Validator walk over the day list. -/
def validateDays : List Json → Except (String × List Json) (List Json)
  | [] => .ok []
  | d :: rest =>
    match validateDay d with
    | .error (msg, d2) => .error (msg, d2 :: rest)
    | .ok d2 =>
      match validateDays rest with
      | .error (msg, rest2) => .error (msg, d2 :: rest2)
      | .ok rest2 => .ok (d2 :: rest2)

/-- The whole validator body: top-level required fields, days a
non-empty list, then the day walk. -/
def validatePlan : Json → Except (String × Json) Json
  | .obj fs =>
    match firstMissing fs requiredPlanFields with
    | some f => .error ("Travel plan is missing required field: " ++ f, .obj fs)
    | none =>
      match getKey? fs "days" with
      | some (.arr ds) =>
        if ds.isEmpty then
          .error ("Travel plan days must be a non-empty list", .obj fs)
        else
          match validateDays ds with
          | .error (msg, ds2) => .error (msg, .obj (setKey fs "days" (.arr ds2)))
          | .ok ds2 => .ok (.obj (setKey fs "days" (.arr ds2)))
      | some _ => .error ("Travel plan days must be a non-empty list", .obj fs)
      | none => .error ("Travel plan is missing required field: days", .obj fs)
  | p => .error ("TypeError: plan is not a dict", p)

/-! ## Plan normalizer (ai_graph.py lines 218-260)

The default-filling pass run inside the generate node after the
response is parsed and the dict-with-days check passed.  It can raise
(for days that are not a list of dicts, or activities that are not a
list of dicts); the exception is caught by the generate node and
counted as a generation failure.  Iteration over a non-list is folded
into a single error case: in Python a number raises at once, while a
string or dict iterates over characters or keys which then raise on
item assignment; the empty-string and empty-dict corners, which Python
would pass through, are not distinguished and no claim depends on
them. -/

/-- Python f-string rendering of a JSON value, as used in the generated
day description.  The composite renderings are abbreviated; no claim
inspects them. -/
def jsonToPyStr : Json → String
  | .num n => toString n
  | .str s => s
  | .bool b => if b then "True" else "False"
  | .null => "None"
  | .arr _ => "[...]"
  | .obj _ => "\x7b...\x7d"

/-- The Python pattern `if key not in d: d[key] = v` of the default
filler. -/
def ensureKey (fs : List (String × Json)) (k : String) (v : Json) :
    List (String × Json) :=
  if hasKey fs k then fs else setKey fs k v

/-- Index of the first value equal to x, as Python list.index computes
it (the element searched for is always in the list when the normalizer
calls this). -/
def idxOfJson (x : Json) : List Json → Nat
  | [] => 0
  | y :: ys => if Json.beq y x then 0 else idxOfJson x ys + 1

/-- Normalizer treatment of one activity: when start_at or end_at is
absent, split a legacy combined time field "HH:MM-HH:MM" into the two
fields, or fall back to the default pair; the legacy field is then
dropped. -/
def normalizeActivity : Json → Except String Json
  | .obj fs =>
    if hasKey fs "start_at" && hasKey fs "end_at" then
      .ok (.obj (if hasKey fs "time" then delKey fs "time" else fs))
    else
      match getKey? fs "time" with
      | some (.str ts) =>
        match splitOnChar '-' ts.data with
        | [p1, p2] =>
          let fs1 := setKey fs "start_at" (.str (String.mk (pyStrip p1)))
          let fs2 := setKey fs1 "end_at" (.str (String.mk (pyStrip p2)))
          .ok (.obj (delKey fs2 "time"))
        | _ =>
          let fs1 := setKey fs "start_at" (.str "09:00")
          let fs2 := setKey fs1 "end_at" (.str "11:00")
          .ok (.obj (delKey fs2 "time"))
      | some _ => .error "TypeError: time field is not a string"
      | none =>
        let fs1 := setKey fs "start_at" (.str "09:00")
        let fs2 := setKey fs1 "end_at" (.str "11:00")
        .ok (.obj fs2)
  | _ => .error "TypeError: activity is not a dict"

/-- Normalizer walk over an activity list. -/
def normalizeActs : List Json → Except String (List Json)
  | [] => .ok []
  | a :: rest =>
    match normalizeActivity a with
    | .error e => .error e
    | .ok a2 =>
      match normalizeActs rest with
      | .error e => .error e
      | .ok rest2 => .ok (a2 :: rest2)

/-- Normalizer treatment of one day.  idx1 is the 1-based position the
day-number default takes, computed by the caller with list.index over
the day list as mutated so far. -/
def normalizeDay (idx1 : Nat) (day : Json) : Except String Json :=
  match day with
  | .obj fs =>
    let fs1 := ensureKey fs "day_number" (.num idx1)
    let dnum := (getKey? fs1 "day_number").getD .null
    let fs2 := ensureKey fs1 "description"
      (.str ("Day " ++ jsonToPyStr dnum ++ " exploration"))
    let fs3 := ensureKey fs2 "reminder" (.str "Check local weather forecast")
    match getKey? fs3 "activities" with
    | none => .ok (.obj fs3)
    | some (.arr acts) =>
      match normalizeActs acts with
      | .error e => .error e
      | .ok acts2 => .ok (.obj (setKey fs3 "activities" (.arr acts2)))
    | some _ => .error "TypeError: activities is not a list of dicts"
  | _ => .error "TypeError: day is not a dict"

/-- Normalizer walk over the day list.  done is the already-normalized
front of the list (the Python loop mutates the list in place, so the
list.index lookup sees it). -/
def normalizeDays (done : List Json) : List Json → Except String (List Json)
  | [] => .ok done
  | day :: rest =>
    match normalizeDay (idxOfJson day (done ++ day :: rest) + 1) day with
    | .error e => .error e
    | .ok day2 => normalizeDays (done ++ [day2]) rest

/-- The remarks default derived from the request parameters. -/
def remarksFor (dest : String) (dur : Nat) (interests : String) : String :=
  "A " ++ toString dur ++ "-day trip to " ++ dest ++ " focusing on " ++ interests

/-- The tips default pair. -/
def defaultTips : Json :=
  .arr [.str "Pack appropriate clothing for the weather",
        .str "Research local customs before your trip"]

/-- The whole default-filling pass of the generate node: top-level
title, destination, remarks and tips, then the day walk.  The generate
node only calls this after checking the plan is a dict containing
"days"; the two final arms are the defensive renderings of what Python
would raise were that not so. -/
def normalizePlan (dest : String) (dur : Nat) (interests : String) :
    Json → Except String Json
  | .obj fs =>
    let fs1 := ensureKey fs "title" (.str ("Trip to " ++ dest))
    let fs2 := ensureKey fs1 "destination" (.str dest)
    let fs3 := ensureKey fs2 "remarks" (.str (remarksFor dest dur interests))
    let fs4 := ensureKey fs3 "tips" defaultTips
    match getKey? fs4 "days" with
    | some (.arr ds) =>
      match normalizeDays [] ds with
      | .error e => .error e
      | .ok ds2 => .ok (.obj (setKey fs4 "days" (.arr ds2)))
    | some _ => .error "TypeError: days is not a list of dicts"
    | none => .error "KeyError: days"
  | _ => .error "TypeError: plan is not a dict"

/-! ## Mock fallback data (ai_graph.py lines 47-89 and 116-162, 277-321)

MOCK_TRAVEL_PLAN is a module-level dict.  The fallback takes a shallow
copy of it, so the copy shares the "days" list object with the module
global: padding appends to the global in place, and renumbering mutates
the shared day dicts in place; only the trim rebinds the key to a fresh
slice.  The global list is therefore threaded through the generator as
an explicit value. -/

/-- First canned day of MOCK_TRAVEL_PLAN. -/
def mockDay1 : Json :=
  .obj [("day_number", .num 1),
        ("description", .str "Exploring iconic landmarks"),
        ("reminder", .str "Wear comfortable shoes for walking"),
        ("activities", .arr
          [.obj [("location", .str "Eiffel Tower"),
                 ("activity", .str "Visit the iconic Eiffel Tower"),
                 ("tips", .str "Go early to avoid crowds"),
                 ("start_at", .str "09:00"),
                 ("end_at", .str "11:00")],
           .obj [("location", .str "Louvre Museum"),
                 ("activity", .str "Explore the world-famous Louvre Museum"),
                 ("tips", .str "Don\x27t miss the Mona Lisa"),
                 ("start_at", .str "12:00"),
                 ("end_at", .str "14:00")]])]

/-- Second canned day of MOCK_TRAVEL_PLAN. -/
def mockDay2 : Json :=
  .obj [("day_number", .num 2),
        ("description", .str "Historical sites and local culture"),
        ("reminder", .str "Check for opening hours"),
        ("activities", .arr
          [.obj [("location", .str "Notre Dame Cathedral"),
                 ("activity", .str "Visit the historic Notre Dame Cathedral"),
                 ("tips", .str "Check for ongoing restoration work"),
                 ("start_at", .str "10:00"),
                 ("end_at", .str "12:00")]])]

/-- The generic placeholder day appended when padding the canned plan
out to the requested duration; n is the 1-based day number it is
created with. -/
def genericDay (n : Nat) : Json :=
  .obj [("day_number", .num n),
        ("description", .str ("Day " ++ toString n ++ " exploration")),
        ("reminder", .str "Check local weather forecast"),
        ("activities", .arr
          [.obj [("location", .str "Local attraction"),
                 ("activity", .str "Explore local attractions"),
                 ("tips", .str "Ask locals for recommendations"),
                 ("start_at", .str "10:00"),
                 ("end_at", .str "12:00")]])]

/-- The shape the shared mock day list always has: the two canned Paris
days followed by generic placeholder days numbered from 3 upward. -/
def stdDay : Nat → Json
  | 0 => mockDay1
  | 1 => mockDay2
  | n + 2 => genericDay (n + 3)

/-- The first n entries of the canonical mock day list. -/
def stdList (n : Nat) : List Json := (List.range n).map stdDay

/-- The tips list of MOCK_TRAVEL_PLAN. -/
def mockTips : Json :=
  .arr [.str "Use the metro to get around", .str "Learn a few French phrases"]

/-- The while-loop that pads the shared day list in place until it
reaches the requested duration.  Each pass appends one generic day, so
dur passes always suffice; the fuel argument makes the recursion
structural. -/
def padToAux : Nat → List Json → Nat → List Json
  | 0, g, _ => g
  | fuel + 1, g, d =>
    if g.length < d then padToAux fuel (g ++ [genericDay (g.length + 1)]) d
    else g

/-- Padding of the shared day list to the requested duration. -/
def padTo (g : List Json) (d : Nat) : List Json := padToAux d g d

/-- Python `day["day_number"] = n` on a day dict.  The fallback only
ever applies this to dict days, so the non-dict arm (where Python would
raise) is inert. -/
def setDayNum (day : Json) (n : Nat) : Json :=
  match day with
  | .obj fs => .obj (setKey fs "day_number" (.num (n : Int)))
  | d => d

/-- The renumbering loop: day i (0-based) gets day_number i+1, mutating
the day dicts in place. -/
def renumberFrom (i : Nat) : List Json → List Json
  | [] => []
  | d :: ds => setDayNum d (i + 1) :: renumberFrom (i + 1) ds

/-- Day-list adjustment of the fallback: pad the shared global list in
place, take the first dur entries (a fresh slice when trimming, the
shared list itself otherwise), and renumber those entries in place.
Returns the plan day list together with the value the module global
holds afterwards (renumbering mutates the shared day dicts, so the
global keeps the renumbered entries and any padding beyond dur). -/
def mockFallbackDays (g : List Json) (dur : Nat) : List Json × List Json :=
  let gl := padTo g dur
  let ds := renumberFrom 0 (gl.take dur)
  (ds, ds ++ gl.drop dur)

/-- The full test-mode fallback plan: a shallow copy of
MOCK_TRAVEL_PLAN with title, destination and remarks rewritten from the
request and the day list adjusted to the duration; also returns the new
value of the module-global day list. -/
def mockFallback (g : List Json) (dest : String) (dur : Nat)
    (interests : String) : Json × List Json :=
  let (ds, g2) := mockFallbackDays g dur
  (.obj [("title", .str ("Trip to " ++ dest)),
         ("destination", .str dest),
         ("remarks", .str (remarksFor dest dur interests)),
         ("days", .arr ds),
         ("tips", mockTips)], g2)

/-! ## Generation state machine (ai_graph.py lines 93-100, 112-331,
444-455, 592-618)

TravelPlanState is the TypedDict threaded through the graph; callers
initialize plan to an empty dict, error to the empty string and
retry_count to 0 (ai_controller.py line 166).  The generate node is
parameterized by the settings environment, the json.loads oracle, the
per-call client oracle and the module-global mock day list. -/

/-- The graph state (TypedDict TravelPlanState). -/
structure TravelPlanState where
  destination : String
  duration : Nat
  interests : String
  start_date : String
  plan : Json
  error : String
  retry_count : Nat

/-- The validate node: pass an already-failed state through untouched;
otherwise run the validator, keeping its silent in-place time repairs
in the plan and recording a raised message in error. -/
def validate_travel_plan (s : TravelPlanState) : TravelPlanState :=
  if s.error = "" then
    match validatePlan s.plan with
    | .ok p2 => { s with plan := p2 }
    | .error (msg, p2) => { s with plan := p2, error := msg }
  else s

/-- The fixed prompt-building and environment context of the generate
node: the settings environment string and the json.loads oracle. -/
structure GenCfg where
  env : String
  loads : String → Option Json

/-- Result of one execution of the generate node: the new state,
whether llm.invoke was executed, and the new value of the module-global
mock day list. -/
structure GenResult where
  state : TravelPlanState
  invoked : Bool
  g : List Json

/-- The error state built by the exception handler of the generate
node: plan cleared, error set, retry count incremented (the increment
is applied by the caller genFailure). -/
def genErrorState (s : TravelPlanState) (msg : String) (rc : Nat) :
    TravelPlanState :=
  { s with plan := .obj [], error := msg, retry_count := rc }

/-- A representative str() of the json.JSONDecodeError raised when the
cleaned response does not parse; no claim inspects this text. -/
def jsonDecodeMsg : String := "Expecting value: line 1 column 1 (char 0)"

/-- The except-branch of the generate node (lines 272-331): increment
the retry count; at the cap in test mode substitute the mock fallback
and report success, otherwise clear the plan and record the message. -/
def genFailure (cfg : GenCfg) (g : List Json) (s : TravelPlanState)
    (msg : String) : GenResult :=
  let rc := s.retry_count + 1
  if 3 ≤ rc ∧ cfg.env = "test" then
    let (plan, g2) := mockFallback g s.destination s.duration s.interests
    ⟨{ s with plan := plan, error := "", retry_count := rc }, true, g2⟩
  else
    ⟨genErrorState s msg rc, true, g⟩

/-- The generate node.  At the retry cap on entry: mock fallback in
test mode, or the formatted failure message otherwise (state otherwise
untouched, no client call).  Below the cap: invoke the client, extract
and parse the response, require a dict containing "days", and run the
default-filling pass; any failure goes through genFailure. -/
def generate_travel_plan (cfg : GenCfg) (resp : Except String String)
    (g : List Json) (s : TravelPlanState) : GenResult :=
  if 3 ≤ s.retry_count then
    if cfg.env = "test" then
      let (plan, g2) := mockFallback g s.destination s.duration s.interests
      ⟨{ s with plan := plan, error := "" }, false, g2⟩
    else
      ⟨{ s with error := "Failed after " ++ toString s.retry_count ++
            " retries. Last error: " ++ s.error }, false, g⟩
  else
    match resp with
    | .error e => genFailure cfg g s e
    | .ok text =>
      match cfg.loads (extractJson text) with
      | none => genFailure cfg g s jsonDecodeMsg
      | some (.obj fs) =>
        if hasKey fs "days" then
          match normalizePlan s.destination s.duration s.interests (.obj fs) with
          | .ok plan2 => ⟨{ s with plan := plan2, error := "" }, true, g⟩
          | .error e => genFailure cfg g s e
        else genFailure cfg g s "Response missing required structure"
      | some _ => genFailure cfg g s "Response missing required structure"

/-- The three labels should_retry can route to. -/
inductive Route where
  | endRun : Route
  | maxRetries : Route
  | retryRun : Route
deriving DecidableEq

/-- The conditional-edge function: no error ends the run, an error at
the retry cap ends it as max_retries, any other error loops back to the
generate node. -/
def should_retry (s : TravelPlanState) : Route :=
  if s.error = "" then .endRun
  else if 3 ≤ s.retry_count then .maxRetries
  else .retryRun

/-- Outcome of driving the graph: final state, final module-global mock
day list, number of client invocations, number of generate and validate
node executions, and whether END was reached (false only when the fuel
ran out first, the graph itself having no termination guarantee). -/
structure RunOutcome where
  final : TravelPlanState
  g : List Json
  calls : Nat
  gens : Nat
  vals : Nat
  finished : Bool

/-- The compiled graph loop: generate, then validate, then route; retry
loops back, end and max_retries stop.  The client oracle is indexed by
the number of invocations made so far. -/
def runGraphAux (cfg : GenCfg) (client : Nat → Except String String) :
    Nat → TravelPlanState → List Json → Nat → Nat → Nat → RunOutcome
  | 0, s, g, calls, gens, vals => ⟨s, g, calls, gens, vals, false⟩
  | fuel + 1, s, g, calls, gens, vals =>
    let r := generate_travel_plan cfg (client calls) g s
    let calls2 := calls + (if r.invoked then 1 else 0)
    let s2 := validate_travel_plan r.state
    match should_retry s2 with
    | .retryRun => runGraphAux cfg client fuel s2 r.g calls2 (gens + 1) (vals + 1)
    | _ => ⟨s2, r.g, calls2, gens + 1, vals + 1, true⟩

/-- Run the travel-plan graph from a state with fresh counters. -/
def runTravelPlanGraph (cfg : GenCfg) (client : Nat → Except String String)
    (fuel : Nat) (s : TravelPlanState) (g : List Json) : RunOutcome :=
  runGraphAux cfg client fuel s g 0 0 0

/-- The initial state the API controller builds (ai_controller.py lines
159-167): empty plan, empty error, retry_count 0. -/
def initState (dest : String) (dur : Nat) (interests : String)
    (sd : String) : TravelPlanState :=
  ⟨dest, dur, interests, sd, .obj [], "", 0⟩

/-! ## Day regenerator (ai_graph.py lines 459-588)

regenerate_travel_plan_day builds a one-day prompt (pure formatting,
absorbed into the client oracle), invokes the client once, extracts and
parses the response with the same brace heuristic, validates the single
day (same field and time checks, plus activities non-empty), and then
replaces or appends the day in a shallow copy of the plan.  dict.copy()
is shallow, so the copy shares the "days" list object with the caller
and every replacement, append or in-place sort is visible through the
caller reference: the function therefore returns the pair (result,
value the caller plan object holds afterwards), which coincide on
every path.  Every exception is caught and resolves to the original
plan reference. -/

/-- The scan for a day whose day_number equals the target.  A day that
is not a dict, or lacks the key, raises in Python before any mutation
(failed); Python == between a number and a value of another type is
False, so such days simply do not match. -/
def findDayIdx (dn : Int) : List Json → Nat → Sum Unit (Option Nat)
  | [], _ => .inr none
  | d :: rest, i =>
    match d with
    | .obj fs =>
      match getKey? fs "day_number" with
      | some (.num m) => if m = dn then .inr (some i) else findDayIdx dn rest (i + 1)
      | some _ => findDayIdx dn rest (i + 1)
      | none => .inl ()
    | _ => .inl ()

/-- Stable insertion of a keyed day into an already sorted keyed list
(equal keys keep their original relative order). -/
def insertByLe {k : Type} (le : k → k → Bool) (x : k × Json) :
    List (k × Json) → List (k × Json)
  | [] => [x]
  | y :: ys => if le y.1 x.1 then y :: insertByLe le x ys else x :: y :: ys

/-- Stable sort of a keyed list. -/
def sortByLe {k : Type} (le : k → k → Bool) (xs : List (k × Json)) :
    List (k × Json) :=
  xs.foldl (fun acc x => insertByLe le x acc) []

/-- Extraction of integer day_number keys from every day, when all are
integers. -/
def numKeyed : List Json → Option (List (Int × Json))
  | [] => some []
  | d :: rest =>
    match d.get "day_number" with
    | some (.num m) =>
      match numKeyed rest with
      | some ks => some ((m, d) :: ks)
      | none => none
    | _ => none

/-- Extraction of string day_number keys from every day, when all are
strings. -/
def strKeyed : List Json → Option (List (String × Json))
  | [] => some []
  | d :: rest =>
    match d.get "day_number" with
    | some (.str m) =>
      match strKeyed rest with
      | some ks => some ((m, d) :: ks)
      | none => none
    | _ => none

/-- Python list.sort(key=day_number) on the day list: a stable sort
when the keys are uniformly integers or uniformly strings; a mixed or
otherwise incomparable key set raises TypeError (none).  A list of at
most one element never compares keys and always succeeds.  When Python
raises mid-sort the list survives in some unspecified order; the model
keeps the pre-sort order in that case, and no claim depends on it. -/
def sortDays (ds : List Json) : Option (List Json) :=
  if ds.length ≤ 1 then some ds
  else
    match numKeyed ds with
    | some ks => some ((sortByLe (fun a b => a ≤ b) ks).map Prod.snd)
    | none =>
      match strKeyed ds with
      | some ks => some ((sortByLe (fun a b => a ≤ b) ks).map Prod.snd)
      | none => none

/-- The single-day validation of the regenerator (lines 530-568): the
four required day fields, activities a non-empty list, and the same
per-activity field and silent time-repair treatment as the main
validator; none models a raise. -/
def regenValidateDay (day : Json) : Option Json :=
  match day with
  | .obj fs =>
    if (firstMissing fs requiredDayFields).isSome then none
    else
      match getKey? fs "activities" with
      | some (.arr acts) =>
        if acts.isEmpty then none
        else
          match validateActs acts with
          | .ok acts2 => some (.obj (setKey fs "activities" (.arr acts2)))
          | .error _ => none
      | _ => none
  | _ => none

/-- The replacement step (lines 570-584) on the shallow copy: replace
the matching day in the shared list, or append the new day and sort the
shared list in place.  Returns (result, caller plan afterwards); the
sharing makes the two components equal on every path.  A scan failure
or a missing or non-list "days" raises before any mutation; a sort
failure raises after the append has already mutated the shared list. -/
def regenReplace (plan : Json) (dn : Int) (newDay : Json) : Json × Json :=
  match plan with
  | .obj fs =>
    match getKey? fs "days" with
    | some (.arr ds) =>
      match findDayIdx dn ds 0 with
      | .inl _ => (plan, plan)
      | .inr (some i) =>
        let p2 := Json.obj (setKey fs "days" (.arr (ds.set i newDay)))
        (p2, p2)
      | .inr none =>
        let ds1 := ds ++ [newDay]
        match sortDays ds1 with
        | some ds2 =>
          let p2 := Json.obj (setKey fs "days" (.arr ds2))
          (p2, p2)
        | none =>
          let p2 := Json.obj (setKey fs "days" (.arr ds1))
          (p2, p2)
    | _ => (plan, plan)
  | _ => (plan, plan)

/-- The whole day-regeneration operation, parameterized by the client
response and the json.loads oracle (destination and interests only
shape the prompt handed to the external client and are absorbed into
the response oracle).  Total: every Python exception is caught and
resolves to the original plan. -/
def regenerate_travel_plan_day (loads : String → Option Json)
    (resp : Except String String) (plan : Json) (day_number : Int) :
    Json × Json :=
  match resp with
  | .error _ => (plan, plan)
  | .ok text =>
    match loads (extractJson text) with
    | none => (plan, plan)
    | some raw =>
      match regenValidateDay raw with
      | none => (plan, plan)
      | some newDay => regenReplace plan day_number newDay

/-! ## Association-list lemmas shared by the proofs -/

theorem getKey?_setKey_self (fs : List (String × Json)) (k : String) (v : Json) :
    getKey? (setKey fs k v) k = some v := by
  induction fs with
  | nil => simp [setKey, getKey?]
  | cons kv rest ih =>
    obtain ⟨k0, v0⟩ := kv
    by_cases h : k0 = k
    · simp [setKey, getKey?, h]
    · simp [setKey, getKey?, h, ih]

theorem getKey?_setKey_ne (fs : List (String × Json)) (k k2 : String) (v : Json)
    (h : k2 ≠ k) : getKey? (setKey fs k v) k2 = getKey? fs k2 := by
  have h2 : ¬ (k = k2) := Ne.symm h
  induction fs with
  | nil => simp [setKey, getKey?, h2]
  | cons kv rest ih =>
    obtain ⟨k0, v0⟩ := kv
    by_cases h0 : k0 = k
    · subst h0
      simp [setKey, getKey?, h2]
    · simp only [setKey, if_neg h0, getKey?]
      by_cases h3 : k0 = k2 <;> simp [h3, ih]

theorem hasKey_setKey_self (fs : List (String × Json)) (k : String) (v : Json) :
    hasKey (setKey fs k v) k = true := by
  simp [hasKey, getKey?_setKey_self]

theorem hasKey_setKey_ne (fs : List (String × Json)) (k k2 : String) (v : Json)
    (h : k2 ≠ k) : hasKey (setKey fs k v) k2 = hasKey fs k2 := by
  simp [hasKey, getKey?_setKey_ne fs k k2 v h]

theorem getKey?_delKey_ne (fs : List (String × Json)) (k k2 : String)
    (h : k2 ≠ k) : getKey? (delKey fs k) k2 = getKey? fs k2 := by
  have h2 : ¬ (k = k2) := Ne.symm h
  induction fs with
  | nil => simp [delKey]
  | cons kv rest ih =>
    obtain ⟨k0, v0⟩ := kv
    by_cases h0 : k0 = k
    · subst h0
      simp [delKey, getKey?, h2]
    · simp only [delKey, if_neg h0, getKey?]
      by_cases h3 : k0 = k2 <;> simp [h3, ih]

theorem hasKey_delKey_ne (fs : List (String × Json)) (k k2 : String)
    (h : k2 ≠ k) : hasKey (delKey fs k) k2 = hasKey fs k2 := by
  simp [hasKey, getKey?_delKey_ne fs k k2 h]

theorem getKey?_eq_none (fs : List (String × Json)) (k : String)
    (h : fs.any (fun kv => kv.1 = k) = false) : getKey? fs k = none := by
  induction fs with
  | nil => rfl
  | cons kv rest ih =>
    obtain ⟨k0, v0⟩ := kv
    simp only [List.any_cons, Bool.or_eq_false_iff] at h
    have hne : k0 ≠ k := by simpa using h.1
    simp [getKey?, hne, ih h.2]

theorem hasKey_delKey_self (fs : List (String × Json)) (k : String)
    (h : distinctKeys fs = true) : hasKey (delKey fs k) k = false := by
  induction fs with
  | nil => simp [delKey, hasKey, getKey?]
  | cons kv rest ih =>
    obtain ⟨k0, v0⟩ := kv
    simp only [distinctKeys, Bool.and_eq_true, Bool.not_eq_true'] at h
    by_cases h0 : k0 = k
    · subst h0
      simp [delKey, hasKey, getKey?_eq_none rest k0 h.1]
    · have h4 := ih h.2
      simp only [hasKey] at h4 ⊢
      simpa [delKey, h0, getKey?] using h4

theorem any_key_setKey (fs : List (String × Json)) (k : String) (v : Json)
    (k0 : String) (hne : k0 ≠ k) :
    (setKey fs k v).any (fun kv => kv.1 = k0) = fs.any (fun kv => kv.1 = k0) := by
  have h2 : ¬ (k = k0) := Ne.symm hne
  induction fs with
  | nil => simp [setKey, h2]
  | cons kv rest ih =>
    obtain ⟨k1, w1⟩ := kv
    by_cases h1 : k1 = k
    · subst h1
      simp [setKey, h2]
    · simp [setKey, h1, ih]

theorem distinctKeys_setKey (fs : List (String × Json)) (k : String) (v : Json)
    (h : distinctKeys fs = true) : distinctKeys (setKey fs k v) = true := by
  induction fs with
  | nil => simp [setKey, distinctKeys]
  | cons kv rest ih =>
    obtain ⟨k0, v0⟩ := kv
    simp only [distinctKeys, Bool.and_eq_true, Bool.not_eq_true'] at h
    by_cases h0 : k0 = k
    · subst h0
      simp [setKey, distinctKeys, h.1, h.2]
    · simp only [setKey, if_neg h0, distinctKeys, Bool.and_eq_true,
        Bool.not_eq_true']
      refine ⟨?_, ih h.2⟩
      rw [any_key_setKey rest k v k0 h0]
      exact h.1

theorem setKey_setKey_same (fs : List (String × Json)) (k : String)
    (v w : Json) : setKey (setKey fs k v) k w = setKey fs k w := by
  induction fs with
  | nil => simp [setKey]
  | cons kv rest ih =>
    obtain ⟨k0, v0⟩ := kv
    by_cases h : k0 = k
    · simp [setKey, h]
    · simp [setKey, h, ih]

/-! ## C3: the day regenerator on failures -/

/-- C3: for every input plan and every failure of the enumerated kinds
(Model Client error; extraction or parse failure, which the code folds
into json.loads failing on the extracted text; validation failure of
the regenerated day), regenerate_travel_plan_day returns normally (it
is a total function: the Python except clause catches every exception)
and both the returned plan and the caller object are the input plan
unchanged — all these failures occur before any mutation of the shared
day list. -/
theorem c3_regen_failure_returns_input (loads : String → Option Json)
    (resp : Except String String) (plan : Json) (dn : Int)
    (h : (∃ e, resp = .error e) ∨
         (∃ t, resp = .ok t ∧ loads (extractJson t) = none) ∨
         (∃ t d, resp = .ok t ∧ loads (extractJson t) = some d ∧
           regenValidateDay d = none)) :
    regenerate_travel_plan_day loads resp plan dn = (plan, plan) := by
  rcases h with ⟨e, rfl⟩ | ⟨t, rfl, hl⟩ | ⟨t, d, rfl, hl, hv⟩
  · rfl
  · simp [regenerate_travel_plan_day, hl]
  · simp [regenerate_travel_plan_day, hl, hv]

/-- Witness for C3 at a concrete input: a client failure on a concrete
plan leaves the plan untouched. -/
theorem c3_regen_failure_returns_input_witness :
    ((∃ e, (Except.error "boom" : Except String String) = .error e) ∨
     (∃ t, (Except.error "boom" : Except String String) = .ok t ∧
       (fun (_ : String) => (none : Option Json)) (extractJson t) = none) ∨
     (∃ t d, (Except.error "boom" : Except String String) = .ok t ∧
       (fun (_ : String) => (none : Option Json)) (extractJson t) = some d ∧
       regenValidateDay d = none)) ∧
    regenerate_travel_plan_day (fun _ => none) (.error "boom")
      (Json.obj [("days", .arr [mockDay1])]) 2 =
      (Json.obj [("days", .arr [mockDay1])], Json.obj [("days", .arr [mockDay1])]) :=
  ⟨Or.inl ⟨"boom", rfl⟩,
   c3_regen_failure_returns_input (fun _ => none) (.error "boom")
     (Json.obj [("days", .arr [mockDay1])]) 2 (Or.inl ⟨"boom", rfl⟩)⟩

/-! ## C7: the day regenerator on success -/

/-- A minimal valid activity used in concrete fixtures. -/
def okAct : Json :=
  .obj [("location", .str "L"), ("activity", .str "A"), ("tips", .str "T"),
        ("start_at", .str "09:00"), ("end_at", .str "10:00")]

/-- A minimal valid day with a given number and description, used in
concrete fixtures. -/
def fixDay (n : Int) (desc : String) : Json :=
  .obj [("day_number", .num n), ("description", .str desc),
        ("reminder", .str "r"), ("activities", .arr [okAct])]

/-- A concrete three-day plan used in concrete fixtures. -/
def fixPlan3 : Json :=
  .obj [("title", .str "T"),
        ("days", .arr [fixDay 1 "old1", fixDay 2 "old2", fixDay 3 "old3"])]

/-- Positions other than the replaced one are untouched by List.set. -/
theorem getD_set_ne (ds : List Json) (i j : Nat) (v : Json) (h : j ≠ i) :
    (ds.set i v).getD j .null = ds.getD j .null := by
  induction ds generalizing i j with
  | nil => simp
  | cons d rest ih =>
    cases i with
    | zero =>
      cases j with
      | zero => exact absurd rfl h
      | succ j2 => simp [List.set, List.getD]
    | succ i2 =>
      cases j with
      | zero => simp [List.set, List.getD]
      | succ j2 =>
        have := ih i2 j2 (fun hh => h (by rw [hh]))
        simpa [List.set, List.getD] using this

/-- C7 counterexample: dict.copy() is shallow, so a successful
regeneration of day 2 mutates the day list of the caller plan object in
place — the input plan afterwards differs from the value passed in
(second conjunct shows exactly what it became), refuting the claim that
the input plan is left unmodified. -/
theorem c7_counterexample :
    (regenerate_travel_plan_day (fun _ => some (fixDay 2 "NEW")) (.ok "x")
        fixPlan3 2).2 ≠ fixPlan3 ∧
    (regenerate_travel_plan_day (fun _ => some (fixDay 2 "NEW")) (.ok "x")
        fixPlan3 2).2 =
      .obj [("title", .str "T"),
            ("days", .arr [fixDay 1 "old1", fixDay 2 "NEW", fixDay 3 "old3"])] := by
  constructor
  · intro h
    have hL : (fun p => match p.get "days" with
        | some (.arr ds) => (ds.getD 1 .null).get "description"
        | _ => none)
        ((regenerate_travel_plan_day (fun _ => some (fixDay 2 "NEW")) (.ok "x")
          fixPlan3 2).2) = some (Json.str "NEW") := rfl
    have hR : (fun p => match p.get "days" with
        | some (.arr ds) => (ds.getD 1 .null).get "description"
        | _ => none) fixPlan3 = some (Json.str "old2") := rfl
    rw [h] at hL
    have h2 : Json.str "old2" = Json.str "NEW" :=
      Option.some.inj (hR.symm.trans hL)
    have h3 : "old2" = "NEW" := by injection h2
    exact absurd h3 (by decide)
  · rfl

/-- C7 amended: on a successful single-day regeneration the returned
plan has the day with the matching day_number replaced (all other
positions unchanged), or, when no day matches, the new day appended and
the list re-sorted by day_number; but the replacement does not happen
only in a copy: dict.copy() shares the day list, so the caller plan
object afterwards coincides with the returned plan (first conjunct)
rather than keeping its original value. -/
theorem c7_regen_success_shape (loads : String → Option Json)
    (txt : String) (raw v : Json) (fs : List (String × Json))
    (ds : List Json) (dn : Int)
    (hload : loads (extractJson txt) = some raw)
    (hval : regenValidateDay raw = some v)
    (hdays : getKey? fs "days" = some (.arr ds)) :
    ((regenerate_travel_plan_day loads (.ok txt) (.obj fs) dn).2 =
      (regenerate_travel_plan_day loads (.ok txt) (.obj fs) dn).1) ∧
    (∀ i, findDayIdx dn ds 0 = .inr (some i) →
      (regenerate_travel_plan_day loads (.ok txt) (.obj fs) dn).1 =
        .obj (setKey fs "days" (.arr (ds.set i v))) ∧
      ∀ j, j ≠ i → (ds.set i v).getD j .null = ds.getD j .null) ∧
    (∀ ds2, findDayIdx dn ds 0 = .inr none → sortDays (ds ++ [v]) = some ds2 →
      (regenerate_travel_plan_day loads (.ok txt) (.obj fs) dn).1 =
        .obj (setKey fs "days" (.arr ds2))) := by
  have hr : regenerate_travel_plan_day loads (.ok txt) (.obj fs) dn =
      regenReplace (.obj fs) dn v := by
    simp [regenerate_travel_plan_day, hload, hval]
  refine ⟨?_, ?_, ?_⟩
  · rw [hr]
    simp only [regenReplace, hdays]
    rcases hf : findDayIdx dn ds 0 with u | oi
    · rfl
    · rcases oi with _ | i
      · rcases hs : sortDays (ds ++ [v]) with _ | ds2 <;> simp
      · simp
  · intro i hf
    rw [hr]
    simp only [regenReplace, hdays, hf]
    exact ⟨by trivial, fun j hj => getD_set_ne ds i j v hj⟩
  · intro ds2 hf hs
    rw [hr]
    simp [regenReplace, hdays, hf, hs]

/-- Witness for the amended C7 at a concrete plan: day 2 of a three-day
plan is replaced and days 1 and 3 are unchanged. -/
theorem c7_regen_success_shape_witness :
    ((fun (_ : String) => some (fixDay 2 "NEW")) (extractJson "x") =
        some (fixDay 2 "NEW") ∧
      regenValidateDay (fixDay 2 "NEW") = some (fixDay 2 "NEW") ∧
      getKey? [("title", Json.str "T"),
               ("days", Json.arr [fixDay 1 "old1", fixDay 2 "old2", fixDay 3 "old3"])]
        "days" = some (.arr [fixDay 1 "old1", fixDay 2 "old2", fixDay 3 "old3"])) ∧
    ((regenerate_travel_plan_day (fun _ => some (fixDay 2 "NEW")) (.ok "x")
        (.obj [("title", Json.str "T"),
               ("days", Json.arr [fixDay 1 "old1", fixDay 2 "old2", fixDay 3 "old3"])]) 2).2 =
      (regenerate_travel_plan_day (fun _ => some (fixDay 2 "NEW")) (.ok "x")
        (.obj [("title", Json.str "T"),
               ("days", Json.arr [fixDay 1 "old1", fixDay 2 "old2", fixDay 3 "old3"])]) 2).1) ∧
    (∀ i, findDayIdx 2 [fixDay 1 "old1", fixDay 2 "old2", fixDay 3 "old3"] 0 = .inr (some i) →
      (regenerate_travel_plan_day (fun _ => some (fixDay 2 "NEW")) (.ok "x")
        (.obj [("title", Json.str "T"),
               ("days", Json.arr [fixDay 1 "old1", fixDay 2 "old2", fixDay 3 "old3"])]) 2).1 =
        .obj (setKey [("title", Json.str "T"),
               ("days", Json.arr [fixDay 1 "old1", fixDay 2 "old2", fixDay 3 "old3"])]
          "days" (.arr ([fixDay 1 "old1", fixDay 2 "old2", fixDay 3 "old3"].set i (fixDay 2 "NEW")))) ∧
      ∀ j, j ≠ i →
        ([fixDay 1 "old1", fixDay 2 "old2", fixDay 3 "old3"].set i (fixDay 2 "NEW")).getD j .null =
          [fixDay 1 "old1", fixDay 2 "old2", fixDay 3 "old3"].getD j .null) ∧
    (∀ ds2, findDayIdx 2 [fixDay 1 "old1", fixDay 2 "old2", fixDay 3 "old3"] 0 = .inr none →
      sortDays ([fixDay 1 "old1", fixDay 2 "old2", fixDay 3 "old3"] ++ [fixDay 2 "NEW"]) = some ds2 →
      (regenerate_travel_plan_day (fun _ => some (fixDay 2 "NEW")) (.ok "x")
        (.obj [("title", Json.str "T"),
               ("days", Json.arr [fixDay 1 "old1", fixDay 2 "old2", fixDay 3 "old3"])]) 2).1 =
        .obj (setKey [("title", Json.str "T"),
               ("days", Json.arr [fixDay 1 "old1", fixDay 2 "old2", fixDay 3 "old3"])]
          "days" (.arr ds2))) :=
  ⟨⟨rfl, rfl, rfl⟩,
   c7_regen_success_shape (fun _ => some (fixDay 2 "NEW")) "x" (fixDay 2 "NEW")
     (fixDay 2 "NEW")
     [("title", Json.str "T"),
      ("days", Json.arr [fixDay 1 "old1", fixDay 2 "old2", fixDay 3 "old3"])]
     [fixDay 1 "old1", fixDay 2 "old2", fixDay 3 "old3"] 2 rfl rfl rfl⟩

/-! ## C9: the response extractor -/

/-- Bridge: the source-translated str.find agrees with the standard
library first-occurrence search. -/
theorem pyFind_eq (cs : List Char) (t : Char) :
    pyFind cs t = (match cs.findIdx? (fun c => c = t) with
      | some n => (n : Int)
      | none => -1) := by
  induction cs with
  | nil => rfl
  | cons c rest ih =>
    by_cases h : c = t
    · simp [pyFind, h]
    · rcases hfi : rest.findIdx? (fun c => c = t) with _ | n <;> rw [hfi] at ih
      · simp only [pyFind, if_neg h, List.findIdx?_cons, decide_eq_true_eq, h,
          if_false, List.findIdx?_start_succ, Nat.zero_add, hfi,
          Option.map_none']
        simp [ih]
      · simp only [pyFind, if_neg h, List.findIdx?_cons, decide_eq_true_eq, h,
          if_false, List.findIdx?_start_succ, Nat.zero_add, hfi,
          Option.map_some']
        simp only [ih]
        norm_num

/-- Bridge: the source-translated str.rfind agrees with the last
occurrence computed by searching the reversed list. -/
theorem pyRFind_eq (cs : List Char) (t : Char) :
    pyRFind cs t = (match cs.reverse.findIdx? (fun c => c = t) with
      | some r => ((cs.length - 1 - r : Nat) : Int)
      | none => -1) := by
  induction cs with
  | nil => rfl
  | cons c rest ih =>
    simp only [List.reverse_cons, List.findIdx?_append]
    rcases hfi : rest.reverse.findIdx? (fun c => c = t) with _ | r <;> rw [hfi] at ih
    · by_cases h : c = t
      · simp only [pyRFind, ih, Option.or, List.findIdx?_cons, decide_eq_true_eq,
          h, if_true, List.findIdx?_nil, Option.map_some']
        simp [List.length_reverse]
      · simp only [pyRFind, ih, Option.or, List.findIdx?_cons, decide_eq_true_eq,
          h, if_false, List.findIdx?_nil, Option.map_none']
        norm_num
    · have hr : r < rest.length := by
        have := List.findIdx?_eq_some_iff_getElem.mp hfi
        simpa [List.length_reverse] using this.1
      simp only [pyRFind, ih, Option.or, Option.map_some']
      have hge : (0 : Int) <= ((rest.length - 1 - r : Nat) : Int) := by positivity
      simp only [if_pos hge, List.length_cons]
      have h2 : rest.length + 1 - 1 - r = (rest.length - 1 - r) + 1 := by omega
      rw [h2]
      push_cast
      ring

/-- C9 amended: the cleaning step takes exactly the slice from the
first opening brace to the last closing brace when both exist in that
order, and otherwise passes the whole stripped text on to the parser —
so a parse error arises exactly when json.loads fails on that chosen
target, not exactly when the braces are missing as the claim stated.
The equality with the spec-worded specExtract (standard-library
first/last occurrence searches) proves the positive half of the claim
and pins down the fallback the claim missed. -/
theorem c9_extract_agrees_spec (s : String) : extractJson s = specExtract s := by
  simp only [extractJson, specExtract]
  rw [pyFind_eq (pyStrip s.data) openB, pyRFind_eq (pyStrip s.data) closeB]
  rcases hf : (pyStrip s.data).findIdx? (fun c => c = openB) with _ | i
  · rcases hg : ((pyStrip s.data).reverse.findIdx? (fun c => c = closeB)) with _ | r <;>
      simp
  · rcases hg : ((pyStrip s.data).reverse.findIdx? (fun c => c = closeB)) with _ | r
    · have hcond : ¬((0:Int) ≤ (i:Int) ∧ (i:Int) < -1) := by omega
      simp only [Option.map_none']
      rw [if_neg hcond]
    · have hr : r < (pyStrip s.data).length := by
        have := List.findIdx?_eq_some_iff_getElem.mp hg
        simpa [List.length_reverse] using this.1
      simp only [Option.map_some']
      by_cases hij : i < (pyStrip s.data).length - 1 - r
      · have hcond : (0:Int) ≤ (i:Int) ∧
            (i:Int) < (((pyStrip s.data).length - 1 - r : Nat) : Int) := by
          constructor
          · positivity
          · omega
        have ha : ((i:Int)).toNat = i := by omega
        have hb : ((((pyStrip s.data).length - 1 - r : Nat) : Int) - (i:Int)).toNat.succ =
            (pyStrip s.data).length - 1 - r - i + 1 := by omega
        simp only [if_pos hcond, if_pos hij, ha, hb]
      · have hcond : ¬((0:Int) ≤ (i:Int) ∧
            (i:Int) < (((pyStrip s.data).length - 1 - r : Nat) : Int)) := by omega
        simp [if_neg hcond, if_neg hij]

/-- A json.loads oracle defined on the single text this counterexample
feeds it; real json.loads parses "[1]" to the one-element array just
the same. -/
def loadsArrOne : String → Option Json :=
  fun t => if t = "[1]" then some (.arr [.num 1]) else none

/-- C9 counterexample: the raw text "[1]" contains no opening brace, so
per the claim extraction must fail; but the code then parses the whole
stripped text, which succeeds — no extraction or parse failure occurs
(the generate node fails later on the dict-shape check, a different
condition than the claim states), refuting the exactly-when clause. -/
theorem c9_counterexample :
    pyFind (pyStrip ("[1]".data)) openB = -1 ∧
    extractJson "[1]" = "[1]" ∧
    loadsArrOne (extractJson "[1]") = some (.arr [.num 1]) :=
  ⟨rfl, rfl, rfl⟩

/-! ## C6: silent time repair in the validator -/

/-- Presence of the required activity fields, with no constraint on the
time values (those the validator repairs silently instead of
checking). -/
def activityShapeOk (a : Json) : Bool :=
  match a with
  | .obj fs => (firstMissing fs requiredActivityFields).isNone
  | _ => false

/-- Presence of the required day fields with a well-typed activities
list. -/
def dayShapeOk (d : Json) : Bool :=
  match d with
  | .obj fs =>
    (firstMissing fs requiredDayFields).isNone &&
      (match getKey? fs "activities" with
       | some (.arr acts) => acts.all activityShapeOk
       | _ => false)
  | _ => false

/-- Presence of every required field of the plan, a non-empty day list,
and the shape conditions on each day: exactly the conditions under
which the validator reaches the end of its walk without raising. -/
def planShapeOk (p : Json) : Bool :=
  match p with
  | .obj fs =>
    (firstMissing fs requiredPlanFields).isNone &&
      (match getKey? fs "days" with
       | some (.arr ds) => !ds.isEmpty && ds.all dayShapeOk
       | _ => false)
  | _ => false

/-- The time repair of one activity as a standalone map. -/
def repairActivity (a : Json) : Json :=
  match a with
  | .obj fs => .obj (fixActivityTimes fs)
  | x => x

/-- The time repairs of one day as a standalone map. -/
def repairDay (d : Json) : Json :=
  match d with
  | .obj fs =>
    match getKey? fs "activities" with
    | some (.arr acts) =>
      .obj (setKey fs "activities" (.arr (acts.map repairActivity)))
    | _ => .obj fs
  | x => x

/-- The time repairs of the whole plan as a standalone map: every
invalid start_at becomes "09:00", every invalid end_at becomes "11:00",
everything else is untouched. -/
def repairPlan (p : Json) : Json :=
  match p with
  | .obj fs =>
    match getKey? fs "days" with
    | some (.arr ds) => .obj (setKey fs "days" (.arr (ds.map repairDay)))
    | _ => .obj fs
  | x => x

theorem validateActivity_shape (a : Json) (h : activityShapeOk a = true) :
    validateActivity a = .ok (repairActivity a) := by
  cases a <;> simp [activityShapeOk] at h
  case obj fs =>
    simp [validateActivity, h, repairActivity]

theorem validateActs_shape (acts : List Json)
    (h : acts.all activityShapeOk = true) :
    validateActs acts = .ok (acts.map repairActivity) := by
  induction acts with
  | nil => rfl
  | cons a rest ih =>
    simp only [List.all_cons, Bool.and_eq_true] at h
    simp [validateActs, validateActivity_shape a h.1, ih h.2]

theorem validateDay_shape (d : Json) (h : dayShapeOk d = true) :
    validateDay d = .ok (repairDay d) := by
  cases d <;> simp [dayShapeOk] at h
  case obj fs =>
    obtain ⟨h1, h2⟩ := h
    rcases hact : getKey? fs "activities" with _ | v
    · rw [hact] at h2
      simp at h2
    · rw [hact] at h2
      cases v <;> simp at h2
      case arr acts =>
        simp [validateDay, h1, hact,
          validateActs_shape acts (List.all_eq_true.mpr h2), repairDay]

theorem validateDays_shape (ds : List Json) (h : ds.all dayShapeOk = true) :
    validateDays ds = .ok (ds.map repairDay) := by
  induction ds with
  | nil => rfl
  | cons d rest ih =>
    simp only [List.all_cons, Bool.and_eq_true] at h
    simp [validateDays, validateDay_shape d h.1, ih h.2]

theorem validatePlan_shape (p : Json) (h : planShapeOk p = true) :
    validatePlan p = .ok (repairPlan p) := by
  cases p <;> simp [planShapeOk] at h
  case obj fs =>
    obtain ⟨h1, h2⟩ := h
    rcases hds : getKey? fs "days" with _ | v
    · rw [hds] at h2
      simp at h2
    · rw [hds] at h2
      cases v <;> simp at h2
      case arr ds =>
        obtain ⟨hne, hall⟩ := h2
        simp [validatePlan, h1, hds, hne,
          validateDays_shape ds (List.all_eq_true.mpr hall), repairPlan]

/-- C6: on a plan whose required fields are all present (at plan, day
and activity level, days non-empty), the validate step never raises:
it returns the state with error still empty and with every invalid
activity time field silently replaced in place by the default ("09:00"
for start_at, "11:00" for end_at) — the whole effect is exactly the
repairPlan map. -/
theorem c6_validator_repairs_times (s : TravelPlanState)
    (herr : s.error = "") (hshape : planShapeOk s.plan = true) :
    validate_travel_plan s = { s with plan := repairPlan s.plan } ∧
    (validate_travel_plan s).error = "" := by
  have h := validatePlan_shape s.plan hshape
  refine ⟨?_, ?_⟩ <;> simp [validate_travel_plan, herr, h]

/-- An activity whose both time fields are invalid, for the C6
witness. -/
def badAct : Json :=
  .obj [("location", .str "L"), ("activity", .str "A"), ("tips", .str "T"),
        ("start_at", .str "25:99"), ("end_at", .str "99:99")]

/-- A one-day plan containing badAct, for the C6 witness. -/
def plan25 : Json :=
  .obj [("title", .str "T"), ("destination", .str "D"), ("remarks", .str "R"),
        ("days", .arr [.obj [("day_number", .num 1), ("description", .str "d"),
                             ("reminder", .str "r"),
                             ("activities", .arr [badAct])]]),
        ("tips", .arr [.str "t"])]

/-- Witness for C6 at a concrete state: the activity with
start_at "25:99" is corrected to the default pair without raising, and
the validate step reports no error. -/
theorem c6_validator_repairs_times_witness :
    ((⟨"D", 1, "I", "", plan25, "", 0⟩ : TravelPlanState).error = "" ∧
      planShapeOk (⟨"D", 1, "I", "", plan25, "", 0⟩ : TravelPlanState).plan = true) ∧
    validate_travel_plan ⟨"D", 1, "I", "", plan25, "", 0⟩ =
      { (⟨"D", 1, "I", "", plan25, "", 0⟩ : TravelPlanState) with
          plan := repairPlan plan25 } ∧
    repairPlan plan25 =
      .obj [("title", .str "T"), ("destination", .str "D"), ("remarks", .str "R"),
            ("days", .arr [.obj [("day_number", .num 1), ("description", .str "d"),
                                 ("reminder", .str "r"),
                                 ("activities", .arr
                                   [.obj [("location", .str "L"), ("activity", .str "A"),
                                          ("tips", .str "T"),
                                          ("start_at", .str "09:00"),
                                          ("end_at", .str "11:00")]])]]),
            ("tips", .arr [.str "t"])] :=
  ⟨⟨rfl, rfl⟩,
   (c6_validator_repairs_times ⟨"D", 1, "I", "", plan25, "", 0⟩ rfl rfl).1,
   rfl⟩

/-! ## C1, C5, C2: the retry loop of the generation state machine -/

/-- The state shape the machine holds at the start of each failing
round: request fields, empty plan dict, some error text, and the
current retry count. -/
def failShapeState (dest : String) (dur : Nat) (interests sd err : String)
    (k : Nat) : TravelPlanState :=
  ⟨dest, dur, interests, sd, .obj [], err, k⟩

/-- The message the validator raises on the empty plan dict (reached
when a client exception had an empty message). -/
def emptyPlanMsg : String := "Travel plan is missing required field: title"

/-- One full round of the graph when the client raises below the retry
cap and the test-mode fallback does not trigger: the retry count
increments, the plan stays empty, the recorded error is the exception
message (or, when that message is empty, the validator complaint about
the empty plan), and the loop continues below the cap or ends at it. -/
theorem runGraphAux_fail_step (cfg : GenCfg) (client : Nat → Except String String)
    (dest : String) (dur : Nat) (interests sd err m : String) (k : Nat)
    (hk : k < 3) (hnt : ¬(3 ≤ k + 1 ∧ cfg.env = "test"))
    (fuel calls gens vals : Nat) (g : List Json)
    (hm : client calls = .error m) :
    runGraphAux cfg client (fuel + 1) (failShapeState dest dur interests sd err k)
        g calls gens vals =
      (if k + 1 < 3 then
        runGraphAux cfg client fuel
          (failShapeState dest dur interests sd
            (if m = "" then emptyPlanMsg else m) (k + 1))
          g (calls + 1) (gens + 1) (vals + 1)
      else
        ⟨failShapeState dest dur interests sd
           (if m = "" then emptyPlanMsg else m) (k + 1),
         g, calls + 1, gens + 1, vals + 1, true⟩) := by
  have hgen : generate_travel_plan cfg (client calls) g
      (failShapeState dest dur interests sd err k) =
      ⟨failShapeState dest dur interests sd m (k + 1), true, g⟩ := by
    rw [hm]
    simp only [generate_travel_plan, failShapeState]
    rw [if_neg (by simpa [failShapeState] using Nat.not_le.mpr hk)]
    simp only [genFailure]
    rw [if_neg (by simpa [failShapeState] using hnt)]
    simp [genErrorState, failShapeState]
  have hval : validate_travel_plan (failShapeState dest dur interests sd m (k + 1)) =
      failShapeState dest dur interests sd (if m = "" then emptyPlanMsg else m) (k + 1) := by
    by_cases hm0 : m = ""
    · subst hm0
      simp [validate_travel_plan, failShapeState, validatePlan, firstMissing,
        hasKey, getKey?, requiredPlanFields, emptyPlanMsg]
    · simp [validate_travel_plan, failShapeState, hm0]
  simp only [runGraphAux]
  rw [hgen]
  simp only []
  rw [hval]
  by_cases hk2 : k + 1 < 3
  · have hroute : should_retry (failShapeState dest dur interests sd
        (if m = "" then emptyPlanMsg else m) (k + 1)) = .retryRun := by
      by_cases hm0 : m = "" <;>
        simp [should_retry, failShapeState, hm0, emptyPlanMsg, Nat.not_le.mpr hk2]
    rw [hroute]
    simp [hk2]
  · have hroute : should_retry (failShapeState dest dur interests sd
        (if m = "" then emptyPlanMsg else m) (k + 1)) = .maxRetries := by
      by_cases hm0 : m = "" <;>
        simp [should_retry, failShapeState, hm0, emptyPlanMsg, Nat.le_of_not_lt hk2]
    rw [hroute]
    simp [hk2]

/-- C1: outside test mode, with a client that raises on every
invocation, the run reaches END in a failure state: retry_count is
exactly 3, the error is non-empty, the client was invoked exactly 3
times and the generate node executed exactly 3 times — a fourth
generation attempt never happens. -/
theorem c1_always_failing_client_terminal (cfg : GenCfg)
    (client : Nat → Except String String) (henv : cfg.env ≠ "test")
    (hcl : ∀ n, ∃ m, client n = .error m)
    (dest : String) (dur : Nat) (interests sd : String) (g : List Json)
    (fuel : Nat) (hfuel : 3 ≤ fuel) :
    (runTravelPlanGraph cfg client fuel (initState dest dur interests sd) g).finished = true ∧
    (runTravelPlanGraph cfg client fuel (initState dest dur interests sd) g).final.retry_count = 3 ∧
    (runTravelPlanGraph cfg client fuel (initState dest dur interests sd) g).final.error ≠ "" ∧
    (runTravelPlanGraph cfg client fuel (initState dest dur interests sd) g).calls = 3 ∧
    (runTravelPlanGraph cfg client fuel (initState dest dur interests sd) g).gens = 3 := by
  obtain ⟨f, rfl⟩ : ∃ f, fuel = f + 3 := ⟨fuel - 3, by omega⟩
  obtain ⟨m0, hm0⟩ := hcl 0
  obtain ⟨m1, hm1⟩ := hcl 1
  obtain ⟨m2, hm2⟩ := hcl 2
  have hnt : ∀ j : Nat, ¬(3 ≤ j ∧ cfg.env = "test") := fun j h => henv h.2
  have hini : initState dest dur interests sd =
      failShapeState dest dur interests sd "" 0 := rfl
  unfold runTravelPlanGraph
  rw [hini]
  rw [show f + 3 = (f + 2) + 1 from rfl,
    runGraphAux_fail_step cfg client dest dur interests sd "" m0 0 (by omega)
      (hnt 1) (f + 2) 0 0 0 g hm0,
    if_pos (by omega : 0 + 1 < 3)]
  rw [show f + 2 = (f + 1) + 1 from rfl,
    runGraphAux_fail_step cfg client dest dur interests sd _ m1 1 (by omega)
      (hnt 2) (f + 1) 1 1 1 g hm1,
    if_pos (by omega : 1 + 1 < 3)]
  rw [runGraphAux_fail_step cfg client dest dur interests sd _ m2 2 (by omega)
      (hnt 3) f 2 2 2 g hm2,
    if_neg (by omega : ¬ 2 + 1 < 3)]
  refine ⟨rfl, rfl, ?_, rfl, rfl⟩
  by_cases hm2e : m2 = "" <;> simp [failShapeState, hm2e, emptyPlanMsg]

/-- The settings used by the concrete production-mode runs: environment
"production" and a json.loads oracle that is never consulted by an
always-raising client. -/
def cfgProd : GenCfg := ⟨"production", fun _ => none⟩

/-- A client raising the message "boom" on every call. -/
def clientBoom : Nat → Except String String := fun _ => .error "boom"

/-- Witness for C1 at a concrete run. -/
theorem c1_always_failing_client_terminal_witness :
    (cfgProd.env ≠ "test" ∧ 3 ≤ (9 : Nat)) ∧
    ((runTravelPlanGraph cfgProd clientBoom 9 (initState "Kyoto, Japan" 2 "temples" "") (stdList 2)).finished = true ∧
     (runTravelPlanGraph cfgProd clientBoom 9 (initState "Kyoto, Japan" 2 "temples" "") (stdList 2)).final.retry_count = 3 ∧
     (runTravelPlanGraph cfgProd clientBoom 9 (initState "Kyoto, Japan" 2 "temples" "") (stdList 2)).final.error ≠ "" ∧
     (runTravelPlanGraph cfgProd clientBoom 9 (initState "Kyoto, Japan" 2 "temples" "") (stdList 2)).calls = 3 ∧
     (runTravelPlanGraph cfgProd clientBoom 9 (initState "Kyoto, Japan" 2 "temples" "") (stdList 2)).gens = 3) :=
  ⟨⟨by decide, by decide⟩,
   c1_always_failing_client_terminal cfgProd clientBoom (by decide)
     (fun _ => ⟨"boom", rfl⟩) "Kyoto, Japan" 2 "temples" "" (stdList 2) 9 (by decide)⟩

/-- The exact failure message format of ai_graph.py line 166, the only
place the retry count is ever put into an error message. -/
def failureMsg (rc : Nat) (last : String) : String :=
  "Failed after " ++ toString rc ++ " retries. Last error: " ++ last

/-- C5 counterexample: a run that hits the retry cap outside test mode
ends with error "boom" — the bare message of the last client exception.
It does not equal the formatted message of line 166 and does not even
contain the digit 3, so the final state does not state the number of
retries: the line 163-167 branch is unreachable because should_retry
routes to END before the generate node can be re-entered with
retry_count at the cap. -/
theorem c5_counterexample :
    (runTravelPlanGraph cfgProd clientBoom 9 (initState "Paris" 3 "food" "") (stdList 2)).finished = true ∧
    (runTravelPlanGraph cfgProd clientBoom 9 (initState "Paris" 3 "food" "") (stdList 2)).final.retry_count = 3 ∧
    (runTravelPlanGraph cfgProd clientBoom 9 (initState "Paris" 3 "food" "") (stdList 2)).final.error = "boom" ∧
    (runTravelPlanGraph cfgProd clientBoom 9 (initState "Paris" 3 "food" "") (stdList 2)).final.error ≠ failureMsg 3 "boom" ∧
    '3' ∉ ((runTravelPlanGraph cfgProd clientBoom 9 (initState "Paris" 3 "food" "") (stdList 2)).final.error).data :=
  ⟨rfl, rfl, rfl, by decide, by decide⟩

/-- A json.loads oracle for the text the divergence counterexample
client returns: a JSON object whose days list is empty, exactly what
real json.loads yields on it. -/
def loadsEmptyDays : String → Option Json :=
  fun s => if s = "\x7b\"days\": []\x7d" then some (.obj [("days", .arr [])])
    else none

/-- Production settings with the loadsEmptyDays oracle. -/
def cfgEmptyDays : GenCfg := ⟨"production", loadsEmptyDays⟩

/-- A client that on every call returns the parseable text whose days
list is empty: generation succeeds, validation fails. -/
def clientEmptyDays : Nat → Except String String :=
  fun _ => .ok "\x7b\"days\": []\x7d"

/-- The initial state of the divergence run. -/
def initParis : TravelPlanState := initState "Paris" 3 "food" ""

/-- The plan the generate node produces from the empty-days response
after default filling. -/
def emptyDaysPlanStar : Json :=
  .obj [("days", .arr []), ("title", .str "Trip to Paris"),
        ("destination", .str "Paris"),
        ("remarks", .str (remarksFor "Paris" 3 "food")),
        ("tips", defaultTips)]

/-- The state the divergence run reaches after every round: validation
failed, but retry_count is still 0 because only generate-step
exceptions increment it, and the next successful generate clears the
error again. -/
def stateStar : TravelPlanState :=
  ⟨"Paris", 3, "food", "", emptyDaysPlanStar,
   "Travel plan days must be a non-empty list", 0⟩

theorem c2_step_init (g : List Json) (calls gens vals fuel : Nat) :
    runGraphAux cfgEmptyDays clientEmptyDays (fuel + 1) initParis g calls gens vals =
      runGraphAux cfgEmptyDays clientEmptyDays fuel stateStar g
        (calls + 1) (gens + 1) (vals + 1) := rfl

theorem c2_step_star (g : List Json) (calls gens vals fuel : Nat) :
    runGraphAux cfgEmptyDays clientEmptyDays (fuel + 1) stateStar g calls gens vals =
      runGraphAux cfgEmptyDays clientEmptyDays fuel stateStar g
        (calls + 1) (gens + 1) (vals + 1) := rfl

theorem c2_loop (fuel : Nat) : ∀ g calls gens vals,
    (runGraphAux cfgEmptyDays clientEmptyDays fuel stateStar g calls gens vals).finished = false ∧
    (runGraphAux cfgEmptyDays clientEmptyDays fuel stateStar g calls gens vals).gens = gens + fuel := by
  induction fuel with
  | zero => intro g calls gens vals; exact ⟨rfl, by simp [runGraphAux]⟩
  | succ f ih =>
    intro g calls gens vals
    rw [c2_step_star]
    obtain ⟨h1, h2⟩ := ih g (calls + 1) (gens + 1) (vals + 1)
    refine ⟨h1, ?_⟩
    rw [h2]
    omega

/-- C2 is refuted (code bug): with a client that always returns the
parseable text with an empty days list, generation succeeds every round
(clearing the error and leaving retry_count at 0), validation fails
every round, and should_retry always answers retry — the machine
executes the generate node once per unit of fuel and never reaches END,
for every fuel.  In particular it exceeds 4 generate and 4 validate
executions, against the guarantee the claim states and against the
intent of the retry counter (ai_graph.py line 100: added "to prevent
infinite recursion"). -/
theorem c2_unbounded_generate_executions (fuel : Nat) :
    (runTravelPlanGraph cfgEmptyDays clientEmptyDays fuel initParis (stdList 2)).finished = false ∧
    (runTravelPlanGraph cfgEmptyDays clientEmptyDays fuel initParis (stdList 2)).gens = fuel := by
  cases fuel with
  | zero => exact ⟨rfl, rfl⟩
  | succ f =>
    unfold runTravelPlanGraph
    rw [c2_step_init]
    obtain ⟨h1, h2⟩ := c2_loop f (stdList 2) 1 1 1
    refine ⟨h1, ?_⟩
    rw [h2]
    omega

/-! ## C4 and C10: the test-mode fallback and the shared mock global -/

/-- The invariant of the module-global mock day list: it is always the
two canned Paris days followed by generic placeholder days numbered
from 3 on.  It holds of the initial MOCK_TRAVEL_PLAN days (n = 2) and
is preserved by every run: padding appends exactly the next generic
day, and renumbering writes each day the number it already has. -/
def MockInv (g : List Json) : Prop := ∃ n, 2 ≤ n ∧ g = stdList n

def mockPlanFor (dest : String) (dur : Nat) (interests : String) : Json :=
  .obj [("title", .str ("Trip to " ++ dest)),
        ("destination", .str dest),
        ("remarks", .str (remarksFor dest dur interests)),
        ("days", .arr (stdList dur)),
        ("tips", mockTips)]

def planDays (p : Json) : List Json :=
  match p.get "days" with
  | some (.arr ds) => ds
  | _ => []

theorem length_stdList (n : Nat) : (stdList n).length = n := by
  simp [stdList]

theorem stdDay_dayNum (i : Nat) :
    (stdDay i).get "day_number" = some (.num ((i : Int) + 1)) := by
  rcases i with _ | _ | m
  · simp [stdDay, mockDay1, Json.get, getKey?]
  · simp [stdDay, mockDay2, Json.get, getKey?]
  · simp [stdDay, genericDay, Json.get, getKey?]
    omega

theorem stdList_snoc (n : Nat) (hn : 2 ≤ n) :
    stdList n ++ [genericDay (n + 1)] = stdList (n + 1) := by
  rcases n with _ | _ | m
  · omega
  · omega
  · simp [stdList, List.range_succ]
    rfl

theorem padToAux_std (fuel : Nat) : ∀ n d, 2 ≤ n → d ≤ n + fuel →
    padToAux fuel (stdList n) d = stdList (max n d) := by
  induction fuel with
  | zero =>
    intro n d hn hd
    rw [padToAux]
    congr 1
    omega
  | succ f ih =>
    intro n d hn hd
    by_cases h : n < d
    · have hlen : (stdList n).length < d := by rw [length_stdList]; exact h
      rw [padToAux, if_pos hlen, length_stdList, stdList_snoc n hn]
      rw [ih (n + 1) d (by omega) (by omega)]
      congr 1
      omega
    · have hlen : ¬ (stdList n).length < d := by rw [length_stdList]; exact h
      rw [padToAux, if_neg hlen]
      congr 1
      omega

theorem padTo_std (n d : Nat) (hn : 2 ≤ n) :
    padTo (stdList n) d = stdList (max n d) :=
  padToAux_std d n d hn (by omega)

theorem take_stdList (n d : Nat) : (stdList n).take d = stdList (min d n) := by
  simp [stdList, ← List.map_take, List.take_range]

theorem setDayNum_stdDay (i : Nat) : setDayNum (stdDay i) (i + 1) = stdDay i := by
  rcases i with _ | _ | m
  · simp [stdDay, mockDay1, setDayNum, setKey]
  · simp [stdDay, mockDay2, setDayNum, setKey]
  · simp [stdDay, genericDay, setDayNum, setKey]
    omega

theorem renumberFrom_range' (len : Nat) : ∀ a,
    renumberFrom a ((List.range' a len).map stdDay) = (List.range' a len).map stdDay := by
  induction len with
  | zero => intro a; rfl
  | succ l ih =>
    intro a
    rw [List.range'_succ]
    simp only [List.map_cons, renumberFrom]
    rw [setDayNum_stdDay a, ih (a + 1)]

theorem renumber_stdList (k : Nat) : renumberFrom 0 (stdList k) = stdList k := by
  have h : stdList k = (List.range' 0 k).map stdDay := by
    simp [stdList, List.range_eq_range']
  rw [h]
  exact renumberFrom_range' k 0

theorem mockFallbackDays_std (n d : Nat) (hn : 2 ≤ n) :
    mockFallbackDays (stdList n) d = (stdList d, stdList (max n d)) := by
  simp only [mockFallbackDays]
  rw [padTo_std n d hn, take_stdList]
  have hmin : min d (max n d) = d := by omega
  rw [hmin, renumber_stdList]
  refine Prod.ext rfl ?_
  show stdList d ++ (stdList (max n d)).drop d = stdList (max n d)
  calc stdList d ++ (stdList (max n d)).drop d
      = (stdList (max n d)).take d ++ (stdList (max n d)).drop d := by
        rw [take_stdList, hmin]
    _ = stdList (max n d) := List.take_append_drop d _

theorem mockFallback_std (n d : Nat) (hn : 2 ≤ n) (dest interests : String) :
    mockFallback (stdList n) dest d interests =
      (mockPlanFor dest d interests, stdList (max n d)) := by
  unfold mockFallback mockPlanFor
  rw [mockFallbackDays_std n d hn]

theorem validateDay_stdDay (i : Nat) : validateDay (stdDay i) = .ok (stdDay i) := by
  rcases i with _ | _ | m
  · rfl
  · rfl
  · rfl

theorem validateDays_range' (len : Nat) : ∀ a,
    validateDays ((List.range' a len).map stdDay) =
      .ok ((List.range' a len).map stdDay) := by
  induction len with
  | zero => intro a; rfl
  | succ l ih =>
    intro a
    rw [List.range'_succ]
    simp only [List.map_cons, validateDays]
    rw [validateDay_stdDay a, ih (a + 1)]

theorem validateDays_stdList (k : Nat) :
    validateDays (stdList k) = .ok (stdList k) := by
  have h : stdList k = (List.range' 0 k).map stdDay := by
    simp [stdList, List.range_eq_range']
  rw [h]
  exact validateDays_range' k 0

theorem setKey_of_getKey? (fs : List (String × Json)) (k : String) (v : Json)
    (h : getKey? fs k = some v) : setKey fs k v = fs := by
  induction fs with
  | nil => simp [getKey?] at h
  | cons kv rest ih =>
    obtain ⟨k0, w⟩ := kv
    by_cases h0 : k0 = k
    · subst h0
      have hw : w = v := by simpa [getKey?] using h
      subst hw
      simp [setKey]
    · simp only [getKey?, if_neg h0] at h
      simp [setKey, h0, ih h]

theorem stdList_ne_nil (d : Nat) (hd : 1 ≤ d) : (stdList d).isEmpty = false := by
  have hlen : (stdList d).length = d := length_stdList d
  cases hsd : stdList d with
  | nil => rw [hsd] at hlen; simp at hlen; omega
  | cons a l => rfl

theorem validatePlan_mockPlanFor (dest : String) (d : Nat) (interests : String)
    (hd : 1 ≤ d) :
    validatePlan (mockPlanFor dest d interests) = .ok (mockPlanFor dest d interests) := by
  have hget : getKey? [("title", Json.str ("Trip to " ++ dest)),
      ("destination", .str dest),
      ("remarks", .str (remarksFor dest d interests)),
      ("days", .arr (stdList d)),
      ("tips", mockTips)] "days" = some (.arr (stdList d)) := by
    simp [getKey?]
  simp only [mockPlanFor, validatePlan, firstMissing, requiredPlanFields, hasKey,
    getKey?, stdList_ne_nil d hd, validateDays_stdList, Bool.false_eq_true,
    if_false]
  simp [setKey_of_getKey? _ _ _ hget, stdList_ne_nil d hd, validateDays_stdList]

theorem runGraphAux_fallback_step (cfg : GenCfg) (client : Nat → Except String String)
    (dest : String) (dur : Nat) (interests sd err m : String)
    (henv : cfg.env = "test") (hdur : 1 ≤ dur) (n : Nat) (hn : 2 ≤ n)
    (fuel calls gens vals : Nat)
    (hm : client calls = .error m) :
    runGraphAux cfg client (fuel + 1) (failShapeState dest dur interests sd err 2)
        (stdList n) calls gens vals =
      ⟨⟨dest, dur, interests, sd, mockPlanFor dest dur interests, "", 3⟩,
       stdList (max n dur), calls + 1, gens + 1, vals + 1, true⟩ := by
  have hgen : generate_travel_plan cfg (client calls) (stdList n)
      (failShapeState dest dur interests sd err 2) =
      ⟨⟨dest, dur, interests, sd, mockPlanFor dest dur interests, "", 3⟩,
       true, stdList (max n dur)⟩ := by
    rw [hm]
    simp only [generate_travel_plan, failShapeState]
    rw [if_neg (by norm_num : ¬ (3 : Nat) ≤ 2)]
    simp only [genFailure]
    rw [if_pos ⟨by norm_num, henv⟩]
    rw [mockFallback_std n dur hn dest interests]
  have hsucc : validate_travel_plan
      ⟨dest, dur, interests, sd, mockPlanFor dest dur interests, "", 3⟩ =
      ⟨dest, dur, interests, sd, mockPlanFor dest dur interests, "", 3⟩ := by
    simp [validate_travel_plan, validatePlan_mockPlanFor dest dur interests hdur]
  simp only [runGraphAux]
  rw [hgen]
  simp only []
  rw [hsucc]
  rfl

theorem getD_stdList (d i : Nat) (h : i < d) :
    (stdList d).getD i .null = stdDay i := by
  simp [stdList, List.getD_eq_getElem?_getD, List.getElem?_map,
    List.getElem?_range h]

/-- C4: in test mode, with a client that raises on every call, the
retry cap is reached inside the third generation attempt and the
machine substitutes the canned baseline plan and reports success: the
run ends with error empty, and the plan has title "Trip to dest", the
requested destination, the remarks derived from the request, exactly
dur days, and day_number values 1..dur matching list position.  Stated
over any module-global day list satisfying MockInv, so it covers runs
executed after arbitrary earlier runs. -/
theorem c4_test_mode_fallback_shape (cfg : GenCfg) (client : Nat → Except String String)
    (henv : cfg.env = "test") (hcl : ∀ k, ∃ m, client k = .error m)
    (dest : String) (dur : Nat) (interests sd : String) (hdur : 1 ≤ dur)
    (n : Nat) (hn : 2 ≤ n) (fuel : Nat) (hfuel : 3 ≤ fuel) :
    (runTravelPlanGraph cfg client fuel (initState dest dur interests sd) (stdList n)).finished = true ∧
    (runTravelPlanGraph cfg client fuel (initState dest dur interests sd) (stdList n)).final.error = "" ∧
    (runTravelPlanGraph cfg client fuel (initState dest dur interests sd) (stdList n)).final.retry_count = 3 ∧
    (runTravelPlanGraph cfg client fuel (initState dest dur interests sd) (stdList n)).final.plan.get "title" = some (.str ("Trip to " ++ dest)) ∧
    (runTravelPlanGraph cfg client fuel (initState dest dur interests sd) (stdList n)).final.plan.get "destination" = some (.str dest) ∧
    (runTravelPlanGraph cfg client fuel (initState dest dur interests sd) (stdList n)).final.plan.get "remarks" = some (.str (remarksFor dest dur interests)) ∧
    (planDays (runTravelPlanGraph cfg client fuel (initState dest dur interests sd) (stdList n)).final.plan).length = dur ∧
    (∀ i, i < dur →
      ((planDays (runTravelPlanGraph cfg client fuel (initState dest dur interests sd) (stdList n)).final.plan).getD i .null).get "day_number" =
        some (.num ((i : Int) + 1))) := by
  obtain ⟨f, rfl⟩ : ∃ f, fuel = f + 3 := ⟨fuel - 3, by omega⟩
  obtain ⟨m0, hm0⟩ := hcl 0
  obtain ⟨m1, hm1⟩ := hcl 1
  obtain ⟨m2, hm2⟩ := hcl 2
  have hini : initState dest dur interests sd =
      failShapeState dest dur interests sd "" 0 := rfl
  unfold runTravelPlanGraph
  rw [hini]
  rw [show f + 3 = (f + 2) + 1 from rfl,
    runGraphAux_fail_step cfg client dest dur interests sd "" m0 0 (by omega)
      (fun h => by omega) (f + 2) 0 0 0 (stdList n) hm0,
    if_pos (by omega : 0 + 1 < 3)]
  rw [show f + 2 = (f + 1) + 1 from rfl,
    runGraphAux_fail_step cfg client dest dur interests sd _ m1 1 (by omega)
      (fun h => by omega) (f + 1) 1 1 1 (stdList n) hm1,
    if_pos (by omega : 1 + 1 < 3)]
  rw [runGraphAux_fallback_step cfg client dest dur interests sd _ m2 henv hdur
      n hn f 2 2 2 hm2]
  refine ⟨rfl, rfl, rfl, rfl, rfl, rfl, ?_, ?_⟩
  · exact length_stdList dur
  · intro i hi
    show ((stdList dur).getD i .null).get "day_number" = some (.num ((i : Int) + 1))
    rw [getD_stdList dur i hi]
    exact stdDay_dayNum i

theorem genFailure_insensitive (cfg : GenCfg) (s : TravelPlanState) (msg : String)
    (g g' : List Json) (hg : MockInv g) (hg' : MockInv g') :
    (genFailure cfg g s msg).state = (genFailure cfg g' s msg).state ∧
    (genFailure cfg g s msg).invoked = (genFailure cfg g' s msg).invoked ∧
    MockInv (genFailure cfg g s msg).g := by
  obtain ⟨n, hn, rfl⟩ := hg
  obtain ⟨n2, hn2, rfl⟩ := hg'
  simp only [genFailure]
  by_cases h : 3 ≤ s.retry_count + 1 ∧ cfg.env = "test"
  · rw [if_pos h, if_pos h, mockFallback_std n s.duration hn,
      mockFallback_std n2 s.duration hn2]
    exact ⟨rfl, rfl, ⟨max n s.duration, by omega, rfl⟩⟩
  · rw [if_neg h, if_neg h]
    exact ⟨rfl, rfl, ⟨n, hn, rfl⟩⟩

theorem generate_insensitive (cfg : GenCfg) (resp : Except String String)
    (s : TravelPlanState) (g g' : List Json) (hg : MockInv g) (hg' : MockInv g') :
    (generate_travel_plan cfg resp g s).state = (generate_travel_plan cfg resp g' s).state ∧
    (generate_travel_plan cfg resp g s).invoked = (generate_travel_plan cfg resp g' s).invoked ∧
    MockInv (generate_travel_plan cfg resp g s).g := by
  by_cases hrc : 3 ≤ s.retry_count
  · obtain ⟨n, hn, rfl⟩ := hg
    obtain ⟨n2, hn2, rfl⟩ := hg'
    simp only [generate_travel_plan, if_pos hrc]
    by_cases he : cfg.env = "test"
    · rw [if_pos he, if_pos he, mockFallback_std n s.duration hn,
        mockFallback_std n2 s.duration hn2]
      exact ⟨rfl, rfl, ⟨max n s.duration, by omega, rfl⟩⟩
    · rw [if_neg he, if_neg he]
      exact ⟨rfl, rfl, ⟨n, hn, rfl⟩⟩
  · rcases resp with e | t
    · simp only [generate_travel_plan, if_neg hrc]
      exact genFailure_insensitive cfg s e g g' hg hg'
    · simp only [generate_travel_plan, if_neg hrc]
      rcases hld : cfg.loads (extractJson t) with _ | p
      · exact genFailure_insensitive cfg s jsonDecodeMsg g g' hg hg'
      · match p with
        | .obj fs =>
          by_cases hdk : hasKey fs "days"
          · simp only [hdk, if_true]
            rcases hnp : normalizePlan s.destination s.duration s.interests (.obj fs)
              with e2 | p2
            · exact genFailure_insensitive cfg s e2 g g' hg hg'
            · exact ⟨rfl, rfl, hg⟩
          · simp only [hdk, Bool.false_eq_true, if_false]
            exact genFailure_insensitive cfg s "Response missing required structure" g g' hg hg'
        | .null => exact genFailure_insensitive cfg s _ g g' hg hg'
        | .bool b => exact genFailure_insensitive cfg s _ g g' hg hg'
        | .num m => exact genFailure_insensitive cfg s _ g g' hg hg'
        | .str st => exact genFailure_insensitive cfg s _ g g' hg hg'
        | .arr xs => exact genFailure_insensitive cfg s _ g g' hg hg'

theorem runGraphAux_insensitive (cfg : GenCfg) (client : Nat → Except String String) :
    ∀ fuel s g g' calls gens vals, MockInv g → MockInv g' →
    ((runGraphAux cfg client fuel s g calls gens vals).final =
      (runGraphAux cfg client fuel s g' calls gens vals).final ∧
     (runGraphAux cfg client fuel s g calls gens vals).calls =
      (runGraphAux cfg client fuel s g' calls gens vals).calls ∧
     (runGraphAux cfg client fuel s g calls gens vals).gens =
      (runGraphAux cfg client fuel s g' calls gens vals).gens ∧
     (runGraphAux cfg client fuel s g calls gens vals).vals =
      (runGraphAux cfg client fuel s g' calls gens vals).vals ∧
     (runGraphAux cfg client fuel s g calls gens vals).finished =
      (runGraphAux cfg client fuel s g' calls gens vals).finished ∧
     MockInv (runGraphAux cfg client fuel s g calls gens vals).g) := by
  intro fuel
  induction fuel with
  | zero =>
    intro s g g' calls gens vals hg hg'
    exact ⟨rfl, rfl, rfl, rfl, rfl, hg⟩
  | succ f ih =>
    intro s g g' calls gens vals hg hg'
    obtain ⟨hst, hinv, hmg⟩ := generate_insensitive cfg (client calls) s g g' hg hg'
    obtain ⟨hst', hinv', hmg'⟩ := generate_insensitive cfg (client calls) s g' g hg' hg
    simp only [runGraphAux]
    rw [hst, hinv]
    rcases hroute : should_retry (validate_travel_plan
        (generate_travel_plan cfg (client calls) g' s).state) with _ | _ | _
    · exact ⟨rfl, rfl, rfl, rfl, rfl, hmg⟩
    · exact ⟨rfl, rfl, rfl, rfl, rfl, hmg⟩
    · exact ih (validate_travel_plan (generate_travel_plan cfg (client calls) g' s).state)
        (generate_travel_plan cfg (client calls) g s).g
        (generate_travel_plan cfg (client calls) g' s).g
        (calls + if (generate_travel_plan cfg (client calls) g' s).invoked then 1 else 0)
        (gens + 1) (vals + 1) hmg hmg'

/-- C10 amended: the final state of a run is a function of its own
request inputs and client behaviour only: run two started after run one
ends in exactly the final state it would have reached from the pristine
module global — the fallback output is history-independent — even
though the module-global mock day list itself is mutated across runs
(see the counterexample), because padded days are position-determined
and renumbering is the identity on the maintained list. -/
theorem c10_second_run_independent_of_history (cfg : GenCfg) (client1 client2 : Nat → Except String String)
    (fuel1 fuel2 : Nat) (s1 s2 : TravelPlanState) (g : List Json)
    (hg : MockInv g) :
    MockInv (runTravelPlanGraph cfg client1 fuel1 s1 g).g ∧
    (runTravelPlanGraph cfg client2 fuel2 s2
        (runTravelPlanGraph cfg client1 fuel1 s1 g).g).final =
      (runTravelPlanGraph cfg client2 fuel2 s2 (stdList 2)).final := by
  have h1 := runGraphAux_insensitive cfg client1 fuel1 s1 g g 0 0 0 hg hg
  have hmg1 : MockInv (runTravelPlanGraph cfg client1 fuel1 s1 g).g :=
    h1.2.2.2.2.2
  refine ⟨hmg1, ?_⟩
  have h2 := runGraphAux_insensitive cfg client2 fuel2 s2
    (runTravelPlanGraph cfg client1 fuel1 s1 g).g (stdList 2) 0 0 0 hmg1
    ⟨2, Nat.le_refl 2, rfl⟩
  exact h2.1

/-- Test-mode settings with a never-consulted json.loads oracle. -/
def cfgTestNone : GenCfg := ⟨"test", fun _ => none⟩

/-- C10 counterexample: the claim asserts no component holds mutable
state shared across runs; but a completed test-mode run pads the
module-level MOCK_TRAVEL_PLAN day list in place — after one run with
duration 3 the shared global is no longer the 2-day list it started
as. -/
theorem c10_counterexample :
    (runTravelPlanGraph cfgTestNone clientBoom 9 (initState "Paris" 3 "food" "") (stdList 2)).finished = true ∧
    (runTravelPlanGraph cfgTestNone clientBoom 9 (initState "Paris" 3 "food" "") (stdList 2)).g ≠ stdList 2 := by
  constructor
  · rfl
  · intro h
    have h3 : (runTravelPlanGraph cfgTestNone clientBoom 9
        (initState "Paris" 3 "food" "") (stdList 2)).g = stdList 3 := rfl
    rw [h3] at h
    have hlen := congrArg List.length h
    rw [length_stdList, length_stdList] at hlen
    omega

/-- Witness for C4 at a concrete test-mode run with duration 4 from the
initial 2-day global. -/
theorem c4_test_mode_fallback_shape_witness :
    (cfgTestNone.env = "test" ∧ 1 ≤ (4 : Nat) ∧ 2 ≤ (2 : Nat) ∧ 3 ≤ (9 : Nat)) ∧
    ((runTravelPlanGraph cfgTestNone clientBoom 9 (initState "Osaka" 4 "food" "") (stdList 2)).finished = true ∧
     (runTravelPlanGraph cfgTestNone clientBoom 9 (initState "Osaka" 4 "food" "") (stdList 2)).final.error = "" ∧
     (runTravelPlanGraph cfgTestNone clientBoom 9 (initState "Osaka" 4 "food" "") (stdList 2)).final.retry_count = 3 ∧
     (runTravelPlanGraph cfgTestNone clientBoom 9 (initState "Osaka" 4 "food" "") (stdList 2)).final.plan.get "title" = some (.str ("Trip to " ++ "Osaka")) ∧
     (runTravelPlanGraph cfgTestNone clientBoom 9 (initState "Osaka" 4 "food" "") (stdList 2)).final.plan.get "destination" = some (.str "Osaka") ∧
     (runTravelPlanGraph cfgTestNone clientBoom 9 (initState "Osaka" 4 "food" "") (stdList 2)).final.plan.get "remarks" = some (.str (remarksFor "Osaka" 4 "food")) ∧
     (planDays (runTravelPlanGraph cfgTestNone clientBoom 9 (initState "Osaka" 4 "food" "") (stdList 2)).final.plan).length = 4 ∧
     (∀ i, i < 4 →
       ((planDays (runTravelPlanGraph cfgTestNone clientBoom 9 (initState "Osaka" 4 "food" "") (stdList 2)).final.plan).getD i .null).get "day_number" =
         some (.num ((i : Int) + 1)))) :=
  ⟨⟨rfl, by decide, by decide, by decide⟩,
   c4_test_mode_fallback_shape cfgTestNone clientBoom rfl
     (fun _ => ⟨"boom", rfl⟩) "Osaka" 4 "food" "" (by decide) 2 (by decide)
     9 (by decide)⟩

/-- Witness for the amended C10 at concrete runs: a 3-day run in test
mode precedes a second run, whose final state equals that of the same
run from the pristine global. -/
theorem c10_second_run_independent_of_history_witness :
    MockInv (stdList 2) ∧
    (MockInv (runTravelPlanGraph cfgTestNone clientBoom 5 (initState "A" 3 "b" "") (stdList 2)).g ∧
     (runTravelPlanGraph cfgTestNone (fun _ => .error "x") 5 (initState "B" 5 "c" "")
        (runTravelPlanGraph cfgTestNone clientBoom 5 (initState "A" 3 "b" "") (stdList 2)).g).final =
       (runTravelPlanGraph cfgTestNone (fun _ => .error "x") 5 (initState "B" 5 "c" "") (stdList 2)).final) :=
  ⟨⟨2, by decide, rfl⟩,
   c10_second_run_independent_of_history cfgTestNone clientBoom
     (fun _ => .error "x") 5 5 (initState "A" 3 "b" "") (initState "B" 5 "c" "")
     (stdList 2) ⟨2, by decide, rfl⟩⟩

/-! ## C8: idempotence of the default-filling pass -/

/-- A value looked up in a well-formed field list is well-formed. -/
theorem wfFields_getKey? (fs : List (String × Json)) (k : String) (v : Json)
    (hwf : wfFields fs = true) (h : getKey? fs k = some v) : v.wf = true := by
  induction fs with
  | nil => simp [getKey?] at h
  | cons kv rest ih =>
    obtain ⟨k0, w⟩ := kv
    simp only [wfFields, Bool.and_eq_true] at hwf
    by_cases h0 : k0 = k
    · simp only [getKey?, if_pos h0, Option.some.injEq] at h
      rw [← h]
      exact hwf.1
    · simp only [getKey?, if_neg h0] at h
      exact ih hwf.2 h

/-- A second normalizer pass over an already-normalized activity makes
no change: the first pass guarantees start_at and end_at are present
and the legacy time field is gone (the distinct-keys hypothesis rules
out a duplicated time entry, which Python dicts cannot hold). -/
theorem normalizeActivity_idem (fs : List (String × Json)) (b : Json)
    (hdk : distinctKeys fs = true)
    (h : normalizeActivity (.obj fs) = .ok b) : normalizeActivity b = .ok b := by
  by_cases hse : hasKey fs "start_at" && hasKey fs "end_at"
  · obtain ⟨hs1, hs2⟩ : hasKey fs "start_at" = true ∧ hasKey fs "end_at" = true := by
      simpa [Bool.and_eq_true] using hse
    simp only [normalizeActivity, if_pos hse, Except.ok.injEq] at h
    subst h
    by_cases ht : hasKey fs "time"
    · simp only [if_pos ht]
      have h1 : hasKey (delKey fs "time") "start_at" = true := by
        rw [hasKey_delKey_ne fs "time" "start_at" (by decide)]
        exact hs1
      have h2 : hasKey (delKey fs "time") "end_at" = true := by
        rw [hasKey_delKey_ne fs "time" "end_at" (by decide)]
        exact hs2
      have h3 : hasKey (delKey fs "time") "time" = false :=
        hasKey_delKey_self fs "time" hdk
      simp [normalizeActivity, h1, h2, h3]
    · simp only [if_neg ht]
      have h3 : hasKey fs "time" = false := by
        exact Bool.not_eq_true _ ▸ (by simpa using ht)
      simp [normalizeActivity, hse, h3]
  · have hsplit : ∀ (fs2 : List (String × Json)),
        hasKey fs2 "start_at" = true → hasKey fs2 "end_at" = true →
        hasKey fs2 "time" = false →
        normalizeActivity (.obj fs2) = .ok (.obj fs2) := by
      intro fs2 ha hb hc
      simp [normalizeActivity, ha, hb, hc]
    rcases ht : getKey? fs "time" with _ | tv
    · simp only [normalizeActivity, if_neg hse, ht, Except.ok.injEq] at h
      subst h
      apply hsplit
      · rw [hasKey_setKey_ne _ "end_at" "start_at" _ (by decide)]
        exact hasKey_setKey_self fs "start_at" _
      · exact hasKey_setKey_self _ "end_at" _
      · rw [hasKey_setKey_ne _ "end_at" "time" _ (by decide),
          hasKey_setKey_ne _ "start_at" "time" _ (by decide)]
        simp [hasKey, ht]
    · cases tv with
      | str ts =>
        have hdel : ∀ v1 v2 : Json,
            hasKey (delKey (setKey (setKey fs "start_at" v1) "end_at" v2) "time") "start_at" = true ∧
            hasKey (delKey (setKey (setKey fs "start_at" v1) "end_at" v2) "time") "end_at" = true ∧
            hasKey (delKey (setKey (setKey fs "start_at" v1) "end_at" v2) "time") "time" = false := by
          intro v1 v2
          refine ⟨?_, ?_, ?_⟩
          · rw [hasKey_delKey_ne _ "time" "start_at" (by decide),
              hasKey_setKey_ne _ "end_at" "start_at" _ (by decide)]
            exact hasKey_setKey_self fs "start_at" v1
          · rw [hasKey_delKey_ne _ "time" "end_at" (by decide)]
            exact hasKey_setKey_self _ "end_at" v2
          · exact hasKey_delKey_self _ "time"
              (distinctKeys_setKey _ "end_at" v2 (distinctKeys_setKey _ "start_at" v1 hdk))
        rcases hsp : splitOnChar '-' ts.data with _ | ⟨p1, ps⟩
        · simp only [normalizeActivity, if_neg hse, ht, hsp, Except.ok.injEq] at h
          subst h
          obtain ⟨ha, hb, hc⟩ := hdel (.str "09:00") (.str "11:00")
          exact hsplit _ ha hb hc
        · rcases ps with _ | ⟨p2, ps2⟩
          · simp only [normalizeActivity, if_neg hse, ht, hsp, Except.ok.injEq] at h
            subst h
            obtain ⟨ha, hb, hc⟩ := hdel (.str "09:00") (.str "11:00")
            exact hsplit _ ha hb hc
          · rcases ps2 with _ | ⟨p3, ps3⟩
            · simp only [normalizeActivity, if_neg hse, ht, hsp, Except.ok.injEq] at h
              subst h
              obtain ⟨ha, hb, hc⟩ := hdel (.str (String.mk (pyStrip p1))) (.str (String.mk (pyStrip p2)))
              exact hsplit _ ha hb hc
            · simp only [normalizeActivity, if_neg hse, ht, hsp, Except.ok.injEq] at h
              subst h
              obtain ⟨ha, hb, hc⟩ := hdel (.str "09:00") (.str "11:00")
              exact hsplit _ ha hb hc
      | null =>
        simp only [normalizeActivity, if_neg hse, ht] at h
        exact Except.noConfusion h
      | bool bb =>
        simp only [normalizeActivity, if_neg hse, ht] at h
        exact Except.noConfusion h
      | num nn =>
        simp only [normalizeActivity, if_neg hse, ht] at h
        exact Except.noConfusion h
      | arr xs =>
        simp only [normalizeActivity, if_neg hse, ht] at h
        exact Except.noConfusion h
      | obj os =>
        simp only [normalizeActivity, if_neg hse, ht] at h
        exact Except.noConfusion h

/-- Second-pass stability of the activity walk. -/
theorem normalizeActs_idem (acts acts2 : List Json)
    (hwf : wfArr acts = true)
    (h : normalizeActs acts = .ok acts2) : normalizeActs acts2 = .ok acts2 := by
  induction acts generalizing acts2 with
  | nil =>
    simp only [normalizeActs, Except.ok.injEq] at h
    subst h
    rfl
  | cons a rest ih =>
    simp only [wfArr, Bool.and_eq_true] at hwf
    cases a with
    | obj fs =>
      rcases h1 : normalizeActivity (.obj fs) with e | a2
      · rw [normalizeActs, h1] at h
        exact Except.noConfusion h
      · rw [normalizeActs, h1] at h
        rcases h2 : normalizeActs rest with e | rest2
        · rw [h2] at h
          exact Except.noConfusion h
        · rw [h2] at h
          simp only [Except.ok.injEq] at h
          subst h
          have hdk : distinctKeys fs = true := by
            have := hwf.1
            simp only [Json.wf, Bool.and_eq_true] at this
            exact this.1
          have ha2 := normalizeActivity_idem fs a2 hdk h1
          have hrest2 := ih rest2 hwf.2 h2
          rw [normalizeActs, ha2, hrest2]
    | null =>
      rw [normalizeActs] at h
      exact Except.noConfusion h
    | bool bb =>
      rw [normalizeActs] at h
      exact Except.noConfusion h
    | num nn =>
      rw [normalizeActs] at h
      exact Except.noConfusion h
    | str ss =>
      rw [normalizeActs] at h
      exact Except.noConfusion h
    | arr xs =>
      rw [normalizeActs] at h
      exact Except.noConfusion h

theorem hasKey_ensureKey_self (fs : List (String × Json)) (k : String) (v : Json) :
    hasKey (ensureKey fs k v) k = true := by
  unfold ensureKey
  by_cases h : hasKey fs k
  · rw [if_pos h]
    exact h
  · rw [if_neg h]
    exact hasKey_setKey_self fs k v

theorem getKey?_ensureKey_ne (fs : List (String × Json)) (k k2 : String) (v : Json)
    (h : k2 ≠ k) : getKey? (ensureKey fs k v) k2 = getKey? fs k2 := by
  unfold ensureKey
  by_cases h0 : hasKey fs k
  · rw [if_pos h0]
  · rw [if_neg h0]
    exact getKey?_setKey_ne fs k k2 v h

theorem hasKey_ensureKey_ne (fs : List (String × Json)) (k k2 : String) (v : Json)
    (h : k2 ≠ k) : hasKey (ensureKey fs k v) k2 = hasKey fs k2 := by
  simp [hasKey, getKey?_ensureKey_ne fs k k2 v h]

theorem ensureKey_of_hasKey (fs : List (String × Json)) (k : String) (v : Json)
    (h : hasKey fs k = true) : ensureKey fs k v = fs := by
  simp [ensureKey, h]

/-- A second normalizer pass over an already-normalized day makes no
change, whatever day-number default position the second pass would use
(the first pass made day_number present, so the index is never
consulted again). -/
theorem normalizeDay_idem (day day2 : Json) (idx1 : Nat)
    (hwf : day.wf = true)
    (h : normalizeDay idx1 day = .ok day2) :
    ∀ idx2, normalizeDay idx2 day2 = .ok day2 := by
  intro idx2
  cases day with
  | obj fs =>
    simp only [normalizeDay] at h
    generalize hA : ensureKey fs "day_number" (Json.num (idx1 : Int)) = fsA at h
    generalize hBB : ensureKey fsA "description"
      (Json.str ("Day " ++ jsonToPyStr ((getKey? fsA "day_number").getD Json.null) ++
        " exploration")) = fsB at h
    generalize hC : ensureKey fsB "reminder"
      (Json.str "Check local weather forecast") = fsC at h
    have hKd : hasKey fsC "day_number" = true := by
      rw [← hC, hasKey_ensureKey_ne _ "reminder" _ _ (by decide), ← hBB,
        hasKey_ensureKey_ne _ "description" _ _ (by decide), ← hA]
      exact hasKey_ensureKey_self _ _ _
    have hKdesc : hasKey fsC "description" = true := by
      rw [← hC, hasKey_ensureKey_ne _ "reminder" _ _ (by decide), ← hBB]
      exact hasKey_ensureKey_self _ _ _
    have hKrem : hasKey fsC "reminder" = true := by
      rw [← hC]
      exact hasKey_ensureKey_self _ _ _
    have hKact : getKey? fsC "activities" = getKey? fs "activities" := by
      rw [← hC, getKey?_ensureKey_ne _ "reminder" _ _ (by decide), ← hBB,
        getKey?_ensureKey_ne _ "description" _ _ (by decide), ← hA,
        getKey?_ensureKey_ne _ "day_number" _ _ (by decide)]
    rcases hact : getKey? fsC "activities" with _ | v
    · rw [hact] at h
      simp only [Except.ok.injEq] at h
      subst h
      simp only [normalizeDay, ensureKey_of_hasKey _ _ _ hKd,
        ensureKey_of_hasKey _ _ _ hKdesc, ensureKey_of_hasKey _ _ _ hKrem, hact]
    · rw [hact] at h
      cases v with
      | arr acts =>
        dsimp only at h
        rcases hna : normalizeActs acts with e | acts2
        · rw [hna] at h
          exact Except.noConfusion h
        · rw [hna] at h
          simp only [Except.ok.injEq] at h
          subst h
          have hwfacts : wfArr acts = true := by
            rw [hact] at hKact
            simp only [Json.wf, Bool.and_eq_true] at hwf
            have := wfFields_getKey? fs "activities" (.arr acts) hwf.2 hKact.symm
            simpa [Json.wf] using this
          have hKd2 : hasKey (setKey fsC "activities" (.arr acts2)) "day_number" = true := by
            rw [hasKey_setKey_ne _ "activities" _ _ (by decide)]
            exact hKd
          have hKdesc2 : hasKey (setKey fsC "activities" (.arr acts2)) "description" = true := by
            rw [hasKey_setKey_ne _ "activities" _ _ (by decide)]
            exact hKdesc
          have hKrem2 : hasKey (setKey fsC "activities" (.arr acts2)) "reminder" = true := by
            rw [hasKey_setKey_ne _ "activities" _ _ (by decide)]
            exact hKrem
          simp only [normalizeDay, ensureKey_of_hasKey _ _ _ hKd2,
            ensureKey_of_hasKey _ _ _ hKdesc2, ensureKey_of_hasKey _ _ _ hKrem2,
            getKey?_setKey_self, normalizeActs_idem acts acts2 hwfacts hna,
            setKey_setKey_same]
      | null => exact Except.noConfusion h
      | bool bb => exact Except.noConfusion h
      | num nn => exact Except.noConfusion h
      | str ss => exact Except.noConfusion h
      | obj os => exact Except.noConfusion h
  | null => simp [normalizeDay] at h
  | bool bb => simp [normalizeDay] at h
  | num nn => simp [normalizeDay] at h
  | str ss => simp [normalizeDay] at h
  | arr xs => simp [normalizeDay] at h

theorem normalizeDays_ok_of_fixed (rest : List Json)
    (hall : ∀ d ∈ rest, ∀ idx, normalizeDay idx d = .ok d) :
    ∀ done, normalizeDays done rest = .ok (done ++ rest) := by
  induction rest with
  | nil => intro done; simp [normalizeDays]
  | cons day rest2 ih =>
    intro done
    simp only [normalizeDays, hall day (List.mem_cons_self day rest2)]
    rw [ih (fun d hd idx => hall d (List.mem_cons_of_mem day hd) idx) (done ++ [day])]
    simp

theorem normalizeDays_out_fixed (rest : List Json) :
    ∀ done out, wfArr rest = true →
    (∀ d ∈ done, ∀ idx, normalizeDay idx d = .ok d) →
    normalizeDays done rest = .ok out →
    ∀ d ∈ out, ∀ idx, normalizeDay idx d = .ok d := by
  induction rest with
  | nil =>
    intro done out hwf hdone h
    simp only [normalizeDays, Except.ok.injEq] at h
    subst h
    exact hdone
  | cons day rest2 ih =>
    intro done out hwf hdone h
    simp only [wfArr, Bool.and_eq_true] at hwf
    rw [normalizeDays] at h
    rcases hnd : normalizeDay (idxOfJson day (done ++ day :: rest2) + 1) day
      with e | day2
    · rw [hnd] at h
      exact Except.noConfusion h
    · rw [hnd] at h
      have hday2 := normalizeDay_idem day day2 _ hwf.1 hnd
      refine ih (done ++ [day2]) out hwf.2 ?_ h
      intro d hd idx
      rcases List.mem_append.mp hd with hd1 | hd2
      · exact hdone d hd1 idx
      · rw [List.mem_singleton.mp hd2]
        exact hday2 idx

/-- C8 amended: the default-filling pass is idempotent on every parsed
plan it succeeds on: a second application returns its input unchanged
(for well-formed plans without duplicate keys, as json.loads produces).
The never-fails half of the original claim is refuted separately: the
pass raises on plans whose days value is not a list of dicts. -/
theorem c8_normalizer_idempotent (dest : String) (dur : Nat) (interests : String)
    (p q : Json) (hwf : p.wf = true)
    (h : normalizePlan dest dur interests p = .ok q) :
    normalizePlan dest dur interests q = .ok q := by
  cases p with
  | obj fs =>
    simp only [normalizePlan] at h
    generalize hA : ensureKey fs "title" (Json.str ("Trip to " ++ dest)) = fsA at h
    generalize hB : ensureKey fsA "destination" (Json.str dest) = fsB at h
    generalize hC : ensureKey fsB "remarks"
      (Json.str (remarksFor dest dur interests)) = fsC at h
    generalize hD : ensureKey fsC "tips" defaultTips = fsD at h
    have hT : hasKey fsD "title" = true := by
      rw [← hD, hasKey_ensureKey_ne _ "tips" _ _ (by decide), ← hC,
        hasKey_ensureKey_ne _ "remarks" _ _ (by decide), ← hB,
        hasKey_ensureKey_ne _ "destination" _ _ (by decide), ← hA]
      exact hasKey_ensureKey_self _ _ _
    have hDe : hasKey fsD "destination" = true := by
      rw [← hD, hasKey_ensureKey_ne _ "tips" _ _ (by decide), ← hC,
        hasKey_ensureKey_ne _ "remarks" _ _ (by decide), ← hB]
      exact hasKey_ensureKey_self _ _ _
    have hR : hasKey fsD "remarks" = true := by
      rw [← hD, hasKey_ensureKey_ne _ "tips" _ _ (by decide), ← hC]
      exact hasKey_ensureKey_self _ _ _
    have hTi : hasKey fsD "tips" = true := by
      rw [← hD]
      exact hasKey_ensureKey_self _ _ _
    have hKdays : getKey? fsD "days" = getKey? fs "days" := by
      rw [← hD, getKey?_ensureKey_ne _ "tips" _ _ (by decide), ← hC,
        getKey?_ensureKey_ne _ "remarks" _ _ (by decide), ← hB,
        getKey?_ensureKey_ne _ "destination" _ _ (by decide), ← hA,
        getKey?_ensureKey_ne _ "title" _ _ (by decide)]
    rcases hds : getKey? fsD "days" with _ | v
    · rw [hds] at h
      exact Except.noConfusion h
    · rw [hds] at h
      cases v with
      | arr ds =>
        dsimp only at h
        rcases hnd : normalizeDays [] ds with e | ds2
        · rw [hnd] at h
          exact Except.noConfusion h
        · rw [hnd] at h
          simp only [Except.ok.injEq] at h
          subst h
          have hwfds : wfArr ds = true := by
            rw [hds] at hKdays
            simp only [Json.wf, Bool.and_eq_true] at hwf
            have := wfFields_getKey? fs "days" (.arr ds) hwf.2 hKdays.symm
            simpa [Json.wf] using this
          have hfix := normalizeDays_out_fixed ds [] ds2 hwfds (by simp) hnd
          have hpass2 : normalizeDays [] ds2 = .ok ds2 := by
            have := normalizeDays_ok_of_fixed ds2 hfix []
            simpa using this
          have hT2 : hasKey (setKey fsD "days" (.arr ds2)) "title" = true := by
            rw [hasKey_setKey_ne _ "days" _ _ (by decide)]
            exact hT
          have hDe2 : hasKey (setKey fsD "days" (.arr ds2)) "destination" = true := by
            rw [hasKey_setKey_ne _ "days" _ _ (by decide)]
            exact hDe
          have hR2 : hasKey (setKey fsD "days" (.arr ds2)) "remarks" = true := by
            rw [hasKey_setKey_ne _ "days" _ _ (by decide)]
            exact hR
          have hTi2 : hasKey (setKey fsD "days" (.arr ds2)) "tips" = true := by
            rw [hasKey_setKey_ne _ "days" _ _ (by decide)]
            exact hTi
          simp only [normalizePlan, ensureKey_of_hasKey _ _ _ hT2,
            ensureKey_of_hasKey _ _ _ hDe2, ensureKey_of_hasKey _ _ _ hR2,
            ensureKey_of_hasKey _ _ _ hTi2, getKey?_setKey_self, hpass2,
            setKey_setKey_same]
      | null => exact Except.noConfusion h
      | bool bb => exact Except.noConfusion h
      | num nn => exact Except.noConfusion h
      | str ss => exact Except.noConfusion h
      | obj os => exact Except.noConfusion h
  | null => simp [normalizePlan] at h
  | bool bb => simp [normalizePlan] at h
  | num nn => simp [normalizePlan] at h
  | str ss => simp [normalizePlan] at h
  | arr xs => simp [normalizePlan] at h

/-- A parsed plan with a legacy combined time field and several absent
defaults, for the C8 witness. -/
def c8WitnessPlan : Json :=
  .obj [("days", .arr [.obj [("day_number", .num 1),
        ("activities", .arr [.obj [("location", .str "L"),
             ("time", .str "09:00 - 10:30")]])]])]

/-- The result of one normalizer pass over c8WitnessPlan. -/
def c8WitnessOut : Json :=
  match normalizePlan "Paris" 2 "food" c8WitnessPlan with
  | .ok q => q
  | .error _ => .null

/-- Witness for the amended C8 at a concrete parsed plan. -/
theorem c8_normalizer_idempotent_witness :
    (c8WitnessPlan.wf = true ∧
     normalizePlan "Paris" 2 "food" c8WitnessPlan = .ok c8WitnessOut) ∧
    normalizePlan "Paris" 2 "food" c8WitnessOut = .ok c8WitnessOut :=
  ⟨⟨by simp [c8WitnessPlan, Json.wf, wfArr, wfFields, distinctKeys], rfl⟩,
   c8_normalizer_idempotent "Paris" 2 "food" c8WitnessPlan c8WitnessOut
     (by simp [c8WitnessPlan, Json.wf, wfArr, wfFields, distinctKeys]) rfl⟩

/-- C8 counterexample: the claim says the normalizer never fails, but
on the parsed plan whose days value is the number 1 (a dict containing
"days", so the generate node hands it to the default-filling pass) the
pass raises - in Python a TypeError from iterating an int - refuting
the never-fails half of the claim. -/
theorem c8_counterexample :
    normalizePlan "Paris" 3 "food" (.obj [("days", .num 1)]) =
      .error "TypeError: days is not a list of dicts" := rfl

def genStepError (cfg : GenCfg) (dest : String) (dur : Nat)
    (interests : String) (resp : Except String String) : Option String :=
  match resp with
  | .error e => some e
  | .ok t =>
    match cfg.loads (extractJson t) with
    | none => some jsonDecodeMsg
    | some (.obj fs) =>
      if hasKey fs "days" then
        match normalizePlan dest dur interests (.obj fs) with
        | .ok _ => none
        | .error e => some e
      else some "Response missing required structure"
    | some _ => some "Response missing required structure"

theorem generate_fail_char (cfg : GenCfg) (resp : Except String String)
    (g : List Json) (s : TravelPlanState) (e : String)
    (henv : cfg.env ≠ "test") (hrc : s.retry_count ≤ 2)
    (h : genStepError cfg s.destination s.duration s.interests resp = some e) :
    generate_travel_plan cfg resp g s =
      ⟨genErrorState s e (s.retry_count + 1), true, g⟩ := by
  have hrc3 : ¬ 3 ≤ s.retry_count := by omega
  have hnt : ¬(3 ≤ s.retry_count + 1 ∧ cfg.env = "test") := fun hh => henv hh.2
  rcases resp with e0 | t
  · simp only [genStepError, Option.some.injEq] at h
    subst h
    simp only [generate_travel_plan, if_neg hrc3, genFailure, if_neg hnt]
  · simp only [genStepError] at h
    simp only [generate_travel_plan, if_neg hrc3]
    rcases hld : cfg.loads (extractJson t) with _ | p
    · rw [hld] at h
      simp only [Option.some.injEq] at h
      subst h
      simp only [genFailure, if_neg hnt]
    · rw [hld] at h
      cases p with
      | obj fs =>
        by_cases hdk : hasKey fs "days"
        · simp only [hdk, if_true] at h ⊢
          rcases hnp : normalizePlan s.destination s.duration s.interests (.obj fs)
            with e2 | p2
          · rw [hnp] at h
            simp only [Option.some.injEq] at h
            subst h
            simp only [genFailure, if_neg hnt]
          · rw [hnp] at h
            exact Option.noConfusion h
        · simp only [hdk, Bool.false_eq_true, if_false] at h ⊢
          simp only [Option.some.injEq] at h
          subst h
          simp only [genFailure, if_neg hnt]
      | null =>
        simp only [Option.some.injEq] at h
        subst h
        simp only [genFailure, if_neg hnt]
      | bool bb =>
        simp only [Option.some.injEq] at h
        subst h
        simp only [genFailure, if_neg hnt]
      | num nn =>
        simp only [Option.some.injEq] at h
        subst h
        simp only [genFailure, if_neg hnt]
      | str ss =>
        simp only [Option.some.injEq] at h
        subst h
        simp only [genFailure, if_neg hnt]
      | arr xs =>
        simp only [Option.some.injEq] at h
        subst h
        simp only [genFailure, if_neg hnt]

theorem generate_ok_char (cfg : GenCfg) (resp : Except String String)
    (g : List Json) (s : TravelPlanState)
    (hrc : s.retry_count ≤ 2)
    (h : genStepError cfg s.destination s.duration s.interests resp = none) :
    ∃ p, generate_travel_plan cfg resp g s =
      ⟨{ s with plan := p, error := "" }, true, g⟩ := by
  have hrc3 : ¬ 3 ≤ s.retry_count := by omega
  rcases resp with e0 | t
  · simp [genStepError] at h
  · simp only [genStepError] at h
    simp only [generate_travel_plan, if_neg hrc3]
    rcases hld : cfg.loads (extractJson t) with _ | p
    · rw [hld] at h
      exact Option.noConfusion h
    · rw [hld] at h
      cases p with
      | obj fs =>
        by_cases hdk : hasKey fs "days"
        · simp only [hdk, if_true] at h ⊢
          rcases hnp : normalizePlan s.destination s.duration s.interests (.obj fs)
            with e2 | p2
          · rw [hnp] at h
            exact Option.noConfusion h
          · rw [hnp] at h
            exact ⟨p2, rfl⟩
        · simp only [hdk, Bool.false_eq_true, if_false] at h
          exact Option.noConfusion h
      | null => exact Option.noConfusion h
      | bool bb => exact Option.noConfusion h
      | num nn => exact Option.noConfusion h
      | str ss => exact Option.noConfusion h
      | arr xs => exact Option.noConfusion h

theorem validate_genError (s : TravelPlanState) (e : String) (k : Nat) :
    validate_travel_plan (genErrorState s e k) =
      genErrorState s (if e = "" then emptyPlanMsg else e) k := by
  by_cases he : e = ""
  · subst he
    simp [validate_travel_plan, genErrorState, validatePlan, firstMissing,
      hasKey, getKey?, requiredPlanFields, emptyPlanMsg]
  · simp [validate_travel_plan, genErrorState, he]

theorem validate_preserves (s : TravelPlanState) :
    (validate_travel_plan s).destination = s.destination ∧
    (validate_travel_plan s).duration = s.duration ∧
    (validate_travel_plan s).interests = s.interests ∧
    (validate_travel_plan s).start_date = s.start_date ∧
    (validate_travel_plan s).retry_count = s.retry_count := by
  unfold validate_travel_plan
  by_cases he : s.error = ""
  · rcases hv : validatePlan s.plan with ⟨m, p⟩ | p <;> simp [he, hv]
  · simp [he]

theorem should_retry_eq_endRun (s : TravelPlanState) :
    should_retry s = .endRun ↔ s.error = "" := by
  unfold should_retry
  by_cases he : s.error = ""
  · simp [he]
  · by_cases hk : 3 ≤ s.retry_count <;> simp [he, hk]

theorem should_retry_eq_maxRetries (s : TravelPlanState)
    (h : should_retry s = .maxRetries) : 3 ≤ s.retry_count := by
  unfold should_retry at h
  by_cases he : s.error = ""
  · simp [he] at h
  · by_cases hk : 3 ≤ s.retry_count
    · exact hk
    · simp [he, hk] at h

theorem c5_run_aux (cfg : GenCfg) (client : Nat → Except String String)
    (henv : cfg.env ≠ "test") (dest : String) (dur : Nat) (interests sd : String) :
    ∀ fuel (s : TravelPlanState) (g : List Json) (calls gens vals : Nat),
    s.destination = dest → s.duration = dur → s.interests = interests →
    s.start_date = sd → s.retry_count ≤ 2 →
    (runGraphAux cfg client fuel s g calls gens vals).finished = true →
    (runGraphAux cfg client fuel s g calls gens vals).final.error ≠ "" →
    (runGraphAux cfg client fuel s g calls gens vals).final.retry_count = 3 ∧
    ∃ e, genStepError cfg dest dur interests
        (client ((runGraphAux cfg client fuel s g calls gens vals).calls - 1)) = some e ∧
      (runGraphAux cfg client fuel s g calls gens vals).final.error =
        (if e = "" then emptyPlanMsg else e) := by
  intro fuel
  induction fuel with
  | zero =>
    intro s g calls gens vals _ _ _ _ _ hfin _
    simp [runGraphAux] at hfin
  | succ f ih =>
    intro s g calls gens vals hd hu hi hs hrc hfin herr
    rcases hge : genStepError cfg dest dur interests (client calls) with _ | e
    · -- the generation step of this round succeeds
      have hge' : genStepError cfg s.destination s.duration s.interests (client calls) = none := by
        rw [hd, hu, hi]; exact hge
      obtain ⟨p, hgen⟩ := generate_ok_char cfg (client calls) g s hrc hge'
      have hstep : runGraphAux cfg client (f + 1) s g calls gens vals =
          (match should_retry (validate_travel_plan { s with plan := p, error := "" }) with
           | .retryRun =>
             runGraphAux cfg client f (validate_travel_plan { s with plan := p, error := "" })
               g (calls + 1) (gens + 1) (vals + 1)
           | _ =>
             ⟨validate_travel_plan { s with plan := p, error := "" },
               g, calls + 1, gens + 1, vals + 1, true⟩) := by
        simp only [runGraphAux]
        rw [hgen]
        dsimp only
        simp
      have hpres := validate_preserves { s with plan := p, error := "" }
      rcases hroute : should_retry (validate_travel_plan { s with plan := p, error := "" })
      case endRun =>
        rw [hroute] at hstep
        rw [hstep] at herr
        exact absurd ((should_retry_eq_endRun _).mp hroute) herr
      case maxRetries =>
        have h3 := should_retry_eq_maxRetries _ hroute
        rw [hpres.2.2.2.2] at h3
        dsimp only at h3
        omega
      case retryRun =>
        rw [hroute] at hstep
        rw [hstep] at hfin herr ⊢
        exact ih (validate_travel_plan { s with plan := p, error := "" }) g
          (calls + 1) (gens + 1) (vals + 1)
          (by rw [hpres.1]; exact hd) (by rw [hpres.2.1]; exact hu)
          (by rw [hpres.2.2.1]; exact hi) (by rw [hpres.2.2.2.1]; exact hs)
          (by rw [hpres.2.2.2.2]; exact hrc) hfin herr
    · -- the generation step of this round fails with recorded message e
      have hge' : genStepError cfg s.destination s.duration s.interests (client calls) = some e := by
        rw [hd, hu, hi]; exact hge
      have hgen := generate_fail_char cfg (client calls) g s e henv hrc hge'
      have he' : (if e = "" then emptyPlanMsg else e) ≠ "" := by
        by_cases hee : e = ""
        · rw [if_pos hee]; exact (by decide : emptyPlanMsg ≠ "")
        · rw [if_neg hee]; exact hee
      have hstep : runGraphAux cfg client (f + 1) s g calls gens vals =
          (if 3 ≤ s.retry_count + 1 then
             ⟨genErrorState s (if e = "" then emptyPlanMsg else e) (s.retry_count + 1),
               g, calls + 1, gens + 1, vals + 1, true⟩
           else
             runGraphAux cfg client f
               (genErrorState s (if e = "" then emptyPlanMsg else e) (s.retry_count + 1))
               g (calls + 1) (gens + 1) (vals + 1)) := by
        simp only [runGraphAux]
        rw [hgen]
        dsimp only
        simp only [if_true, validate_genError]
        by_cases hk : 3 ≤ s.retry_count + 1
        · rw [if_pos hk]
          have hr : should_retry
              (genErrorState s (if e = "" then emptyPlanMsg else e) (s.retry_count + 1)) =
              .maxRetries := by
            simp [should_retry, genErrorState, he', hk]
          rw [hr]
        · rw [if_neg hk]
          have hr : should_retry
              (genErrorState s (if e = "" then emptyPlanMsg else e) (s.retry_count + 1)) =
              .retryRun := by
            simp [should_retry, genErrorState, he', hk]
          rw [hr]
      by_cases hk : 3 ≤ s.retry_count + 1
      · rw [if_pos hk] at hstep
        rw [hstep]
        refine ⟨by simp [genErrorState]; omega, e, ?_, by simp [genErrorState]⟩
        simpa using hge
      · rw [if_neg hk] at hstep
        rw [hstep] at hfin herr ⊢
        exact ih (genErrorState s (if e = "" then emptyPlanMsg else e) (s.retry_count + 1)) g
          (calls + 1) (gens + 1) (vals + 1)
          (by simp [genErrorState]; exact hd) (by simp [genErrorState]; exact hu)
          (by simp [genErrorState]; exact hi) (by simp [genErrorState]; exact hs)
          (by simp [genErrorState]; omega) hfin herr

/-- C5 amended: every run that terminates in the failure state - outside the
test-mode fallback - carries as its final error exactly the message recorded by
the last (third) failing generation step, determined by the response to the last
Model Client invocation: the client exception's message, the JSON-decode
complaint, the missing-structure complaint, or the normalizer error; when that
message is the empty string the validator's complaint about the cleared empty
plan takes its place. The final error never states the number of retries: the
retry count is carried in the separate retry_count field, which is 3. -/
theorem c5_failure_error_is_last_message (cfg : GenCfg)
    (client : Nat → Except String String) (henv : cfg.env ≠ "test")
    (dest : String) (dur : Nat) (interests sd : String) (g : List Json) (fuel : Nat)
    (hfin : (runTravelPlanGraph cfg client fuel (initState dest dur interests sd) g).finished
      = true)
    (herr : (runTravelPlanGraph cfg client fuel (initState dest dur interests sd) g).final.error
      ≠ "") :
    (runTravelPlanGraph cfg client fuel (initState dest dur interests sd) g).final.retry_count
      = 3 ∧
    ∃ e, genStepError cfg dest dur interests
        (client ((runTravelPlanGraph cfg client fuel (initState dest dur interests sd) g).calls
          - 1)) = some e ∧
      (runTravelPlanGraph cfg client fuel (initState dest dur interests sd) g).final.error =
        (if e = "" then emptyPlanMsg else e) :=
  c5_run_aux cfg client henv dest dur interests sd fuel
    (initState dest dur interests sd) g 0 0 0 rfl rfl rfl rfl (by simp [initState])
    hfin herr

theorem c5_failure_error_is_last_message_witness :
    (cfgProd.env ≠ "test" ∧
     (runTravelPlanGraph cfgProd clientBoom 9
        (initState "Paris" 3 "food" "2025-06-01") (stdList 2)).finished = true ∧
     (runTravelPlanGraph cfgProd clientBoom 9
        (initState "Paris" 3 "food" "2025-06-01") (stdList 2)).final.error ≠ "") ∧
    ((runTravelPlanGraph cfgProd clientBoom 9
        (initState "Paris" 3 "food" "2025-06-01") (stdList 2)).final.retry_count = 3 ∧
     ∃ e, genStepError cfgProd "Paris" 3 "food"
        (clientBoom ((runTravelPlanGraph cfgProd clientBoom 9
          (initState "Paris" 3 "food" "2025-06-01") (stdList 2)).calls - 1)) = some e ∧
       (runTravelPlanGraph cfgProd clientBoom 9
          (initState "Paris" 3 "food" "2025-06-01") (stdList 2)).final.error =
         (if e = "" then emptyPlanMsg else e)) :=
  ⟨⟨by decide, rfl, by decide⟩,
    c5_failure_error_is_last_message cfgProd clientBoom (by decide)
      "Paris" 3 "food" "2025-06-01" (stdList 2) 9 rfl (by decide)⟩
